import Mathlib

/-!
Solver body state of the sequential-impulse constraint solver, and the motion controller.

Shallow embedding of `btSolverBody` (BulletDynamics/ConstraintSolver/btSolverBody.h) and of
`CPhysicsMotionController` (src/Physics_MotionController.cpp).

The scalar type `btScalar` and the LinearMath value types are declared outside the
sources at hand, so the scalar is a type parameter `S`. Statements that replay the
expression the code evaluates hold for every `S` that has the operations involved;
statements that rely on a law of arithmetic name the law as a hypothesis or ask for a
commutative ring, that is, they are statements about exact arithmetic. The type
`btScalar` below is the single-precision scalar of the default build, with rounding,
infinities and NaN; it is the scalar of the examples in which rounding or overflow
decides the outcome.
-/

/-! ## LinearMath value types -/

/-- Modelled from the spec: `btVector3` (LinearMath/btVector3.h is not among the sources).
A vector of three scalars. -/
@[ext]
structure btVector3 (S : Type) where
  x : S
  y : S
  z : S
deriving DecidableEq, Repr

namespace btVector3

variable {S : Type}

/-- Modelled from the spec: `btVector3::setValue(0,0,0)`, the zero vector. -/
def zero [Zero S] : btVector3 S := ⟨0, 0, 0⟩

instance [Zero S] : Zero (btVector3 S) := ⟨zero⟩

/-- Modelled from the spec: `operator+` / `operator+=` of `btVector3`, pure vector addition. -/
def add [Add S] (v w : btVector3 S) : btVector3 S := ⟨v.x + w.x, v.y + w.y, v.z + w.z⟩

instance [Add S] : Add (btVector3 S) := ⟨add⟩

/-- Modelled from the spec: `v * s`, a vector times a scalar on the right. -/
def scale [Mul S] (v : btVector3 S) (s : S) : btVector3 S := ⟨v.x * s, v.y * s, v.z * s⟩

/-- Modelled from the spec: `s * v`, a scalar times a vector (`magnitude * angularFactor`). -/
def smul [Mul S] (s : S) (v : btVector3 S) : btVector3 S := ⟨s * v.x, s * v.y, s * v.z⟩

/-- Modelled from the spec: `v * w` on two vectors, the component-wise product. -/
def mul [Mul S] (v w : btVector3 S) : btVector3 S := ⟨v.x * w.x, v.y * w.y, v.z * w.z⟩

/-- Modelled from the spec: `v.cross(w)`, the vector product written `×` in the spec. -/
def cross [Mul S] [Sub S] (v w : btVector3 S) : btVector3 S :=
  ⟨v.y * w.z - v.z * w.y, v.z * w.x - v.x * w.z, v.x * w.y - v.y * w.x⟩

end btVector3

/-- Modelled from the spec: `btMatrix3x3` (LinearMath/btMatrix3x3.h is not among the sources),
a rotation basis stored as three rows. -/
structure btMatrix3x3 (S : Type) where
  row0 : btVector3 S
  row1 : btVector3 S
  row2 : btVector3 S
deriving DecidableEq, Repr

/-- Modelled from the spec: `btTransform`, a rigid transform (rotation + translation). -/
structure btTransform (S : Type) where
  m_basis : btMatrix3x3 S
  m_origin : btVector3 S
deriving DecidableEq, Repr

/-! ## btSolverBody -/

/-- The per-body record of the constraint solver, fields in the order of the source.
The two pointers `m_originalBody` and `m_originalColObj` are handles; `none` is the
null pointer. -/
structure btSolverBody (S : Type) where
  m_worldTransform : btTransform S
  m_deltaLinearVelocity : btVector3 S
  m_deltaAngularVelocity : btVector3 S
  m_angularFactor : btVector3 S
  m_linearFactor : btVector3 S
  m_invMass : btVector3 S
  m_pushVelocity : btVector3 S
  m_turnVelocity : btVector3 S
  m_linearVelocity : btVector3 S
  m_angularVelocity : btVector3 S
  m_externalForceImpulse : btVector3 S
  m_externalTorqueImpulse : btVector3 S
  m_originalBody : Option Nat
  m_originalColObj : Option Nat
  m_bFixed : Bool
deriving DecidableEq, Repr

namespace btSolverBody

variable {S : Type}

/-- Embedding of `setWorldTransform`. -/
def setWorldTransform (b : btSolverBody S) (worldTransform : btTransform S) : btSolverBody S :=
  { b with m_worldTransform := worldTransform }

/-- Embedding of `getWorldTransform`. -/
def getWorldTransform (b : btSolverBody S) : btTransform S := b.m_worldTransform

/-- Embedding of `getVelocityInLocalPointNoDelta`. The method is const: the first component
is the body as it was received, the second the value written to the out-parameter
`velocity`. -/
def getVelocityInLocalPointNoDelta [Add S] [Mul S] [Sub S] [Zero S]
    (b : btSolverBody S) (rel_pos : btVector3 S) : btSolverBody S × btVector3 S :=
  if b.m_originalBody.isSome then
    (b, b.m_linearVelocity + b.m_externalForceImpulse
          + (b.m_angularVelocity + b.m_externalTorqueImpulse).cross rel_pos)
  else
    (b, btVector3.zero)

/-- Embedding of `getVelocityInLocalPointObsolete` (const, as above). -/
def getVelocityInLocalPointObsolete [Add S] [Mul S] [Sub S] [Zero S]
    (b : btSolverBody S) (rel_pos : btVector3 S) : btSolverBody S × btVector3 S :=
  if b.m_originalBody.isSome then
    (b, b.m_linearVelocity + b.m_deltaLinearVelocity
          + (b.m_angularVelocity + b.m_deltaAngularVelocity).cross rel_pos)
  else
    (b, btVector3.zero)

/-- Embedding of `getAngularVelocity` (const, as above). -/
def getAngularVelocity [Add S] [Zero S] (b : btSolverBody S) : btSolverBody S × btVector3 S :=
  if b.m_originalBody.isSome then
    (b, b.m_angularVelocity + b.m_deltaAngularVelocity)
  else
    (b, btVector3.zero)

/-- Embedding of `applyImpulse`. -/
def applyImpulse [Add S] [Mul S] (b : btSolverBody S)
    (linearComponent angularComponent : btVector3 S) (impulseMagnitude : S) : btSolverBody S :=
  if b.m_originalBody.isSome then
    { b with
      m_deltaLinearVelocity :=
        b.m_deltaLinearVelocity + (linearComponent.scale impulseMagnitude).mul b.m_linearFactor
      m_deltaAngularVelocity :=
        b.m_deltaAngularVelocity
          + angularComponent.mul (btVector3.smul impulseMagnitude b.m_angularFactor) }
  else b

/-- Embedding of `internalApplyPushImpulse`, the `applyPushImpulse` of the spec. -/
def internalApplyPushImpulse [Add S] [Mul S] (b : btSolverBody S)
    (linearComponent angularComponent : btVector3 S) (impulseMagnitude : S) : btSolverBody S :=
  if b.m_originalBody.isSome then
    { b with
      m_pushVelocity :=
        b.m_pushVelocity + (linearComponent.scale impulseMagnitude).mul b.m_linearFactor
      m_turnVelocity :=
        b.m_turnVelocity
          + angularComponent.mul (btVector3.smul impulseMagnitude b.m_angularFactor) }
  else b

/-- Embedding of `getDeltaLinearVelocity`. -/
def getDeltaLinearVelocity (b : btSolverBody S) : btVector3 S := b.m_deltaLinearVelocity

/-- Embedding of `getDeltaAngularVelocity`. -/
def getDeltaAngularVelocity (b : btSolverBody S) : btVector3 S := b.m_deltaAngularVelocity

/-- Embedding of `getPushVelocity`. -/
def getPushVelocity (b : btSolverBody S) : btVector3 S := b.m_pushVelocity

/-- Embedding of `getTurnVelocity`. -/
def getTurnVelocity (b : btSolverBody S) : btVector3 S := b.m_turnVelocity

/-- Embedding of `internalApplyImpulse`. -/
def internalApplyImpulse [Add S] [Mul S] (b : btSolverBody S)
    (linearComponent angularComponent : btVector3 S) (impulseMagnitude : S) : btSolverBody S :=
  if b.m_originalBody.isSome then
    { b with
      m_deltaLinearVelocity :=
        b.m_deltaLinearVelocity + (linearComponent.scale impulseMagnitude).mul b.m_linearFactor
      m_deltaAngularVelocity :=
        b.m_deltaAngularVelocity
          + angularComponent.mul (btVector3.smul impulseMagnitude b.m_angularFactor) }
  else b

/-- Embedding of `writebackVelocity`. -/
def writebackVelocity [Add S] (b : btSolverBody S) : btSolverBody S :=
  if b.m_originalBody.isSome then
    { b with
      m_linearVelocity := b.m_linearVelocity + b.m_deltaLinearVelocity
      m_angularVelocity := b.m_angularVelocity + b.m_deltaAngularVelocity }
  else b

/-- Embedding of `writebackVelocityAndTransform`. `btVector3::fuzzyZero` and
`btTransformUtil::integrateTransform` are not among the sources and are taken as the
parameters `fuzzyZero` and `integrateTransform` (the latter returns the transform the
original writes to its out-parameter). -/
def writebackVelocityAndTransform [Add S] [Mul S]
    (fuzzyZero : btVector3 S → Bool)
    (integrateTransform : btTransform S → btVector3 S → btVector3 S → S → btTransform S)
    (b : btSolverBody S) (timeStep splitImpulseTurnErp : S) : btSolverBody S :=
  if b.m_originalBody.isSome then
    let b1 : btSolverBody S :=
      { b with
        m_linearVelocity := b.m_linearVelocity + b.m_deltaLinearVelocity
        m_angularVelocity := b.m_angularVelocity + b.m_deltaAngularVelocity }
    if !fuzzyZero b1.m_pushVelocity || !fuzzyZero b1.m_turnVelocity then
      { b1 with
        m_worldTransform :=
          integrateTransform b1.m_worldTransform b1.m_pushVelocity
            (b1.m_turnVelocity.scale splitImpulseTurnErp) timeStep }
    else b1
  else b

end btSolverBody

/-! ## Sequences of impulse calls -/

/-- One call of the impulse protocol, with its arguments. -/
inductive ImpulseCall (S : Type) where
  | applyImpulse (linearComponent angularComponent : btVector3 S) (impulseMagnitude : S)
  | applyPushImpulse (linearComponent angularComponent : btVector3 S) (impulseMagnitude : S)
deriving DecidableEq, Repr

/-- Performs one call on a body. -/
def ImpulseCall.run {S : Type} [Add S] [Mul S] (b : btSolverBody S) :
    ImpulseCall S → btSolverBody S
  | .applyImpulse l a m => b.applyImpulse l a m
  | .applyPushImpulse l a m => b.internalApplyPushImpulse l a m

/-- Performs a finite sequence of calls, first call first. -/
def runCalls {S : Type} [Add S] [Mul S] (b : btSolverBody S) (cs : List (ImpulseCall S)) :
    btSolverBody S :=
  cs.foldl ImpulseCall.run b

/-! ## Concrete bodies over the integers -/

/-- The identity transform over the integers. -/
def identityTransform : btTransform ℤ :=
  ⟨⟨⟨1, 0, 0⟩, ⟨0, 1, 0⟩, ⟨0, 0, 1⟩⟩, ⟨0, 0, 0⟩⟩

/-- A body at rest with unit factors and unit inverse mass; `owner` is the owning-body
pointer and `fixed` the value of `m_bFixed`. -/
def restBody (owner : Option Nat) (fixed : Bool) : btSolverBody ℤ where
  m_worldTransform := identityTransform
  m_deltaLinearVelocity := ⟨0, 0, 0⟩
  m_deltaAngularVelocity := ⟨0, 0, 0⟩
  m_angularFactor := ⟨1, 1, 1⟩
  m_linearFactor := ⟨1, 1, 1⟩
  m_invMass := ⟨1, 1, 1⟩
  m_pushVelocity := ⟨0, 0, 0⟩
  m_turnVelocity := ⟨0, 0, 0⟩
  m_linearVelocity := ⟨0, 0, 0⟩
  m_angularVelocity := ⟨0, 0, 0⟩
  m_externalForceImpulse := ⟨0, 0, 0⟩
  m_externalTorqueImpulse := ⟨0, 0, 0⟩
  m_originalBody := owner
  m_originalColObj := owner
  m_bFixed := fixed

/-- A dynamic body at rest whose linear axes are all locked (`linearFactor = 0`). -/
def lockedBody : btSolverBody ℤ :=
  { restBody (some 1) false with m_linearFactor := ⟨0, 0, 0⟩ }

/-- A dynamic body at rest that already carries the delta `(1,2,3)`. -/
def preloadedBody : btSolverBody ℤ :=
  { restBody (some 1) false with m_deltaLinearVelocity := ⟨1, 2, 3⟩ }

/-- A dynamic body in motion, with every vector field distinct and non-zero. -/
def movingBody : btSolverBody ℤ where
  m_worldTransform := ⟨⟨⟨1, 0, 0⟩, ⟨0, 1, 0⟩, ⟨0, 0, 1⟩⟩, ⟨4, 5, 6⟩⟩
  m_deltaLinearVelocity := ⟨1, 2, 3⟩
  m_deltaAngularVelocity := ⟨-1, 4, 2⟩
  m_angularFactor := ⟨1, 0, 1⟩
  m_linearFactor := ⟨1, 1, 0⟩
  m_invMass := ⟨2, 2, 2⟩
  m_pushVelocity := ⟨7, 0, -2⟩
  m_turnVelocity := ⟨0, 3, 1⟩
  m_linearVelocity := ⟨10, 20, 30⟩
  m_angularVelocity := ⟨5, -6, 7⟩
  m_externalForceImpulse := ⟨0, -9, 0⟩
  m_externalTorqueImpulse := ⟨2, 2, -3⟩
  m_originalBody := some 1
  m_originalColObj := some 1
  m_bFixed := false

/-- A stand-in for `fuzzyZero` over the integers: all three components are zero. -/
def exactZero (v : btVector3 ℤ) : Bool := decide (v = ⟨0, 0, 0⟩)

/-- A stand-in for `integrateTransform` over the integers: moves the origin by
`linvel * timeStep + angvel`, so that every argument shows in the result. -/
def shiftOrigin (t : btTransform ℤ) (linvel angvel : btVector3 ℤ) (timeStep : ℤ) :
    btTransform ℤ :=
  { t with m_origin := t.m_origin + linvel.scale timeStep + angvel }

/-! ## Collaborators of the motion controller -/

namespace btVector3

variable {S : Type}

/-- Modelled from the spec: `v.dot(w)`, the scalar product. -/
def dot [Add S] [Mul S] (v w : btVector3 S) : S := v.x * w.x + v.y * w.y + v.z * w.z

end btVector3

/-- Modelled from the spec: `btMatrix3x3 * btVector3`, the basis applied to a vector (each
row times the vector). -/
def btMatrix3x3.mulVec {S : Type} [Add S] [Mul S] (m : btMatrix3x3 S) (v : btVector3 S) :
    btVector3 S :=
  ⟨m.row0.dot v, m.row1.dot v, m.row2.dot v⟩

/-- Modelled from the spec: the identity basis. -/
def btMatrix3x3.identity {S : Type} [Zero S] [One S] : btMatrix3x3 S :=
  ⟨⟨1, 0, 0⟩, ⟨0, 1, 0⟩, ⟨0, 0, 1⟩⟩

/-- Embedding of `btTransform::getBasis`. -/
def btTransform.getBasis {S : Type} (t : btTransform S) : btMatrix3x3 S := t.m_basis

/-- Modelled from the spec: the rigid-body collaborator (`btRigidBody` and its motion state
are not among the sources). It carries the two velocities, the forces and torques handed
to its accumulation facility (the arguments of the `applyCentralForce` and `applyTorque`
calls received so far, oldest first) and the transform that
`btMassCenterMotionState::getGraphicTransform` yields. -/
structure btRigidBody (S : Type) where
  m_linearVelocity : btVector3 S
  m_angularVelocity : btVector3 S
  centralForces : List (btVector3 S)
  torques : List (btVector3 S)
  graphicTransform : btTransform S
deriving DecidableEq, Repr

namespace btRigidBody

variable {S : Type}

/-- Modelled from the spec: `getLinearVelocity`. -/
def getLinearVelocity (body : btRigidBody S) : btVector3 S := body.m_linearVelocity

/-- Modelled from the spec: `getAngularVelocity`. -/
def getAngularVelocity (body : btRigidBody S) : btVector3 S := body.m_angularVelocity

/-- Modelled from the spec: `setLinearVelocity`. -/
def setLinearVelocity (body : btRigidBody S) (lin_vel : btVector3 S) : btRigidBody S :=
  { body with m_linearVelocity := lin_vel }

/-- Modelled from the spec: `setAngularVelocity`. -/
def setAngularVelocity (body : btRigidBody S) (ang_vel : btVector3 S) : btRigidBody S :=
  { body with m_angularVelocity := ang_vel }

/-- Modelled from the spec: `applyCentralForce`, which queues a force on the body. -/
def applyCentralForce (body : btRigidBody S) (force : btVector3 S) : btRigidBody S :=
  { body with centralForces := body.centralForces ++ [force] }

/-- Modelled from the spec: `applyTorque`, which queues a torque on the body. -/
def applyTorque (body : btRigidBody S) (torque : btVector3 S) : btRigidBody S :=
  { body with torques := body.torques ++ [torque] }

/-- Modelled from the spec: `getMotionState()->getGraphicTransform(transform)`, returning
what the original writes to `transform`. -/
def getGraphicTransform (body : btRigidBody S) : btTransform S := body.graphicTransform

end btRigidBody

/-- Modelled from the spec: `IMotionEvent::simresult_e` (declared in the engine interface,
not among the sources): the five event kinds, and `outOfRange value` for a returned value
that is none of the five. -/
inductive simresult_e where
  | SIM_NOTHING
  | SIM_LOCAL_ACCELERATION
  | SIM_LOCAL_FORCE
  | SIM_GLOBAL_ACCELERATION
  | SIM_GLOBAL_FORCE
  | outOfRange (value : Int)
deriving DecidableEq, Repr

/-- Modelled from the spec: the handler contract
`Simulate(controller, object, deltaTime) → (eventKind, linear, angular)`. The object is
given by its pointer; `V` is the vector type of the engine. -/
structure IMotionEvent (S V : Type) where
  Simulate : Nat → S → simresult_e × V × V

/-- Modelled from the spec: the unit conversion collaborator (`convert.h` is not among the
sources). -/
structure Convert (S V : Type) where
  ConvertForceImpulseToBull : V → btVector3 S
  ConvertAngularImpulseToBull : V → btVector3 S

/-! ## CUtlVector -/

namespace CUtlVector

variable {α : Type}

/-- Modelled from the spec: `CUtlVector::Count`. -/
abbrev Count (v : List α) : Nat := v.length

/-- The search loop of `Find`, at index `i` of the whole vector. -/
def FindFrom [DecidableEq α] : List α → α → Nat → Int
  | [], _, _ => -1
  | a :: rest, src, i => if a = src then (i : Int) else FindFrom rest src (i + 1)

/-- Modelled from the spec: `CUtlVector::Find`, the index of the first element equal to
`src`, or -1 when there is none. -/
def Find [DecidableEq α] (v : List α) (src : α) : Int := FindFrom v src 0

/-- Modelled from the spec: `CUtlVector::IsValidIndex`. -/
def IsValidIndex (v : List α) (i : Int) : Bool := decide (0 ≤ i) && decide (i < (v.length : Int))

/-- Modelled from the spec: `CUtlVector::Remove(elem)`, which removes the element at an
index and keeps the order of the others. -/
def Remove (v : List α) (elem : Nat) : List α := v.eraseIdx elem

/-- Modelled from the spec: `CUtlVector::AddToTail`. -/
def AddToTail (v : List α) (src : α) : List α := v ++ [src]

/-- Modelled from the spec: `CUtlVector::Purge`. -/
def Purge (_v : List α) : List α := []

end CUtlVector

/-! ## CPhysicsMotionController -/

/-- What the controller acts on besides its own fields: the rigid body of every physics
object (indexed by the pointer of the object), the `Simulate` calls made so far (the
object of each call, oldest first) and the values reported through `DevWarning`. -/
structure World (S : Type) where
  bodies : Nat → btRigidBody S
  simulateCalls : List Nat
  warnings : List Int

/-- The controller: the handler pointer (`none` is null), the environment pointer and the
object list, whose entries are object pointers (`none` is a null entry). -/
structure CPhysicsMotionController (S V : Type) where
  m_handler : Option (IMotionEvent S V)
  m_pEnv : Nat
  m_objectList : List (Option Nat)

namespace CPhysicsMotionController

variable {S V : Type}

/-- The `switch` of `Tick` on one rigid body, with the converted vectors. The label
`default` is the last case; the report through `DevWarning` is recorded by the caller. -/
def dispatch [Add S] [Mul S] (ret : simresult_e) (bullSpeed bullRot : btVector3 S)
    (deltaTime : S) (body : btRigidBody S) : btRigidBody S :=
  match ret with
  | .SIM_NOTHING => body
  | .SIM_LOCAL_ACCELERATION =>
    let transform := body.getGraphicTransform
    let bullSpeed := transform.getBasis.mulVec bullSpeed
    let body := body.setLinearVelocity (body.getLinearVelocity + bullSpeed.scale deltaTime)
    body.setAngularVelocity (body.getAngularVelocity + bullRot.scale deltaTime)
  | .SIM_LOCAL_FORCE =>
    let transform := body.getGraphicTransform
    let bullSpeed := transform.getBasis.mulVec bullSpeed
    let body := body.applyCentralForce (bullSpeed.scale deltaTime)
    body.applyTorque (bullRot.scale deltaTime)
  | .SIM_GLOBAL_ACCELERATION =>
    let body := body.setLinearVelocity (body.getLinearVelocity + bullSpeed.scale deltaTime)
    body.setAngularVelocity (body.getAngularVelocity + bullRot.scale deltaTime)
  | .SIM_GLOBAL_FORCE =>
    let body := body.applyCentralForce (bullSpeed.scale deltaTime)
    body.applyTorque (bullRot.scale deltaTime)
  | .outOfRange _ => body

/-- The values `Tick` reports through `DevWarning` for an event kind. -/
def reported : simresult_e → List Int
  | .outOfRange value => [value]
  | _ => []

/-- The body of the loop of `Tick` for a non-null entry `p`: the handler is asked, the
vectors are converted and the `switch` acts on the rigid body of the object. -/
def simulateObject [Add S] [Mul S] (cv : Convert S V) (handler : IMotionEvent S V)
    (deltaTime : S) (p : Nat) (w : World S) : World S :=
  let ret := handler.Simulate p deltaTime
  let bullSpeed := cv.ConvertForceImpulseToBull ret.2.1
  let bullRot := cv.ConvertAngularImpulseToBull ret.2.2
  { bodies := Function.update w.bodies p (dispatch ret.1 bullSpeed bullRot deltaTime (w.bodies p))
    simulateCalls := w.simulateCalls ++ [p]
    warnings := w.warnings ++ reported ret.1 }

/-- What the loop body does to the rigid body of object `p`: the `switch` on the answer of
the handler for `p`, with the converted vectors. -/
def objectStep [Add S] [Mul S] (cv : Convert S V) (handler : IMotionEvent S V)
    (deltaTime : S) (p : Nat) (body : btRigidBody S) : btRigidBody S :=
  dispatch (handler.Simulate p deltaTime).1
    (cv.ConvertForceImpulseToBull (handler.Simulate p deltaTime).2.1)
    (cv.ConvertAngularImpulseToBull (handler.Simulate p deltaTime).2.2) deltaTime body

/-- The loop body performed for the objects `ps`, one after the other. -/
def simulateAll [Add S] [Mul S] (cv : Convert S V) (handler : IMotionEvent S V)
    (deltaTime : S) (ps : List Nat) (w : World S) : World S :=
  ps.foldl (fun w p => simulateObject cv handler deltaTime p w) w

/-- The `for` loop of `Tick` from index `i` on. A null entry is removed and the index is
kept (`i--` followed by the `i++` of the loop); any other entry is simulated and the index
advances. The debug assertion on freed memory has no counterpart. -/
def tickLoop [Add S] [Mul S] (cv : Convert S V) (handler : IMotionEvent S V) (deltaTime : S)
    (i : Nat) (c : CPhysicsMotionController S V) (w : World S) :
    CPhysicsMotionController S V × World S :=
  if hi : i < c.m_objectList.length then
    match c.m_objectList[i] with
    | none =>
      tickLoop cv handler deltaTime i
        { c with m_objectList := CUtlVector.Remove c.m_objectList i } w
    | some p =>
      tickLoop cv handler deltaTime (i + 1) c (simulateObject cv handler deltaTime p w)
  else (c, w)
termination_by c.m_objectList.length - i
decreasing_by
  · simp only [CUtlVector.Remove, List.length_eraseIdx_of_lt hi]
    omega
  · omega

/-- Embedding of `Tick`. -/
def Tick [Add S] [Mul S] (cv : Convert S V) (c : CPhysicsMotionController S V) (w : World S)
    (deltaTime : S) : CPhysicsMotionController S V × World S :=
  match c.m_handler with
  | none => (c, w)
  | some handler => tickLoop cv handler deltaTime 0 c w

/-- Embedding of `SetEventHandler`. -/
def SetEventHandler (c : CPhysicsMotionController S V) (handler : Option (IMotionEvent S V)) :
    CPhysicsMotionController S V :=
  { c with m_handler := handler }

/-- Embedding of `AttachObject`. `IsStatic` is the static classification of the objects
(`pObject->IsStatic()`); the debug assertion on a null object has no counterpart. -/
def AttachObject (IsStatic : Nat → Bool) (c : CPhysicsMotionController S V)
    (pObject : Option Nat) (checkIfAlreadyAttached : Bool) : CPhysicsMotionController S V :=
  match pObject with
  | none => c
  | some p =>
    if IsStatic p then c
    else if CUtlVector.Find c.m_objectList (some p) ≠ -1 && checkIfAlreadyAttached then c
    else { c with m_objectList := CUtlVector.AddToTail c.m_objectList (some p) }

/-- Embedding of `DetachObject`. -/
def DetachObject (c : CPhysicsMotionController S V) (pObject : Option Nat) :
    CPhysicsMotionController S V :=
  let index := CUtlVector.Find c.m_objectList pObject
  if !CUtlVector.IsValidIndex c.m_objectList index then c
  else { c with m_objectList := CUtlVector.Remove c.m_objectList index.toNat }

/-- Embedding of `CountObjects`. -/
def CountObjects (c : CPhysicsMotionController S V) : Nat := CUtlVector.Count c.m_objectList

/-- Embedding of `ClearObjects`. -/
def ClearObjects (c : CPhysicsMotionController S V) : CPhysicsMotionController S V :=
  { c with m_objectList := CUtlVector.Purge c.m_objectList }

end CPhysicsMotionController

/-- One call on a controller, with its arguments. -/
inductive ControllerCall (S : Type) where
  | AttachObject (pObject : Option Nat) (checkIfAlreadyAttached : Bool)
  | DetachObject (pObject : Option Nat)
  | ClearObjects
  | Tick (deltaTime : S)

/-- Performs one call on a controller and its world. -/
def ControllerCall.run {S V : Type} [Add S] [Mul S] (IsStatic : Nat → Bool) (cv : Convert S V)
    (s : CPhysicsMotionController S V × World S) :
    ControllerCall S → CPhysicsMotionController S V × World S
  | .AttachObject pObject checkIfAlreadyAttached =>
    (s.1.AttachObject IsStatic pObject checkIfAlreadyAttached, s.2)
  | .DetachObject pObject => (s.1.DetachObject pObject, s.2)
  | .ClearObjects => (s.1.ClearObjects, s.2)
  | .Tick deltaTime => s.1.Tick cv s.2 deltaTime

/-- Performs a finite sequence of calls, first call first. -/
def runController {S V : Type} [Add S] [Mul S] (IsStatic : Nat → Bool) (cv : Convert S V)
    (s : CPhysicsMotionController S V × World S) (calls : List (ControllerCall S)) :
    CPhysicsMotionController S V × World S :=
  calls.foldl (ControllerCall.run IsStatic cv) s

/-! ## Concrete controllers and worlds -/

/-- A rigid body at rest with the identity orientation and nothing queued. -/
def restRigidBody {S : Type} [Zero S] [One S] : btRigidBody S where
  m_linearVelocity := ⟨0, 0, 0⟩
  m_angularVelocity := ⟨0, 0, 0⟩
  centralForces := []
  torques := []
  graphicTransform := ⟨btMatrix3x3.identity, ⟨0, 0, 0⟩⟩

/-- A rigid body in motion, turned a quarter about the z axis, with one force and one
torque already queued. -/
def turnedRigidBody {S : Type} [Zero S] [One S] [Neg S] [OfNat S 2] [OfNat S 3] :
    btRigidBody S where
  m_linearVelocity := ⟨1, 2, 3⟩
  m_angularVelocity := ⟨3, 2, 1⟩
  centralForces := [⟨1, 1, 1⟩]
  torques := [⟨2, 2, 2⟩]
  graphicTransform := ⟨⟨⟨0, -1, 0⟩, ⟨1, 0, 0⟩, ⟨0, 0, 1⟩⟩, ⟨0, 0, 0⟩⟩

/-- The world in which every object has the turned rigid body and nothing has happened. -/
def turnedWorld {S : Type} [Zero S] [One S] [Neg S] [OfNat S 2] [OfNat S 3] : World S where
  bodies := fun _ => turnedRigidBody
  simulateCalls := []
  warnings := []

/-- The world in which every object has a rigid body at rest and nothing has happened. -/
def restWorld {S : Type} [Zero S] [One S] : World S where
  bodies := fun _ => restRigidBody
  simulateCalls := []
  warnings := []

/-- The conversion for handlers that already answer in solver units. -/
def solverUnits {S : Type} : Convert S (btVector3 S) where
  ConvertForceImpulseToBull := id
  ConvertAngularImpulseToBull := id

/-- The handler that gives the same answer for every object. -/
def constantHandler {S : Type} (ret : simresult_e) (linear angular : btVector3 S) :
    IMotionEvent S (btVector3 S) where
  Simulate := fun _ _ => (ret, linear, angular)

/-- The handler that answers by object: object 1 gets an out-of-range kind, object 2
nothing, every other object a global acceleration of (1,0,0). -/
def mixedHandler {S : Type} [Zero S] [One S] : IMotionEvent S (btVector3 S) where
  Simulate := fun p _ =>
    if p = 1 then (.outOfRange 7, ⟨1, 1, 1⟩, ⟨1, 1, 1⟩)
    else if p = 2 then (.SIM_NOTHING, ⟨1, 1, 1⟩, ⟨1, 1, 1⟩)
    else (.SIM_GLOBAL_ACCELERATION, ⟨1, 0, 0⟩, ⟨0, 0, 0⟩)

/-- A controller with the given handler and object list. -/
def controllerOf {S V : Type} (handler : Option (IMotionEvent S V))
    (objects : List (Option Nat)) : CPhysicsMotionController S V where
  m_handler := handler
  m_pEnv := 0
  m_objectList := objects

/-- The classification in which object 0 is static and every other object is not. -/
def onlyZeroStatic (p : Nat) : Bool := decide (p = 0)

/-! ## btScalar in single precision -/

/-- The number of binary digits of `n`, counted in at most `fuel` halvings. -/
def bitLengthAux : Nat → Nat → Nat
  | 0, _ => 0
  | fuel + 1, n => if n = 0 then 0 else bitLengthAux fuel (n / 2) + 1

/-- The number of binary digits of `n` (0 for 0); `n` halvings always suffice. -/
def bitLength (n : Nat) : Nat := bitLengthAux n n

/-- Modelled from the spec: `btScalar` (LinearMath/btScalar.h is not among the sources) in
its default build, where it is `float`, the type `Tick` also takes its `deltaTime` in: an
IEEE 754 single-precision number. `finite negative m e` is the value `± m * 2^e` with
`m < 2^24` and `-149 ≤ e ≤ 104`, `m ≥ 2^23` unless `e = -149` (subnormal numbers and the
two zeros, `m = 0`). -/
inductive btScalar where
  | finite (negative : Bool) (mantissa : Nat) (exponent : Int)
  | infinity (negative : Bool)
  | nan
deriving DecidableEq, Repr

namespace btScalar

/-- The exponent of the smallest subnormal number, `2^-149`. -/
def minExponent : Int := -149

/-- The largest exponent of a 24-digit mantissa: the largest finite number is
`(2^24 - 1) * 2^104`. -/
def maxExponent : Int := 104

/-- Rounds the exact value `± m * 2^e` to single precision, to the nearest number and to
the even mantissa on a tie; a value too large becomes an infinity. -/
def roundNearestEven (negative : Bool) (m : Nat) (e : Int) : btScalar :=
  if m = 0 then finite negative 0 minExponent
  else
    let q : Int := max (e + (bitLength m : Int) - 24) minExponent
    if q ≤ e then
      if q > maxExponent then infinity negative
      else finite negative (m * 2 ^ (e - q).toNat) q
    else
      let k : Nat := (q - e).toNat
      let m0 : Nat := m / 2 ^ k
      let r : Nat := m % 2 ^ k
      let half : Nat := 2 ^ (k - 1)
      let m1 : Nat := if half < r ∨ (r = half ∧ m0 % 2 = 1) then m0 + 1 else m0
      let m2 : Nat := if m1 = 2 ^ 24 then 2 ^ 23 else m1
      let q2 : Int := if m1 = 2 ^ 24 then q + 1 else q
      if q2 > maxExponent then infinity negative else finite negative m2 q2

/-- The integer `± m`. -/
def signed (negative : Bool) (m : Nat) : Int := if negative then -(m : Int) else (m : Int)

/-- Single-precision addition: the exact sum, rounded; an exact zero sum is `+0` unless
both terms are `-0`; opposite infinities give a NaN. -/
def add : btScalar → btScalar → btScalar
  | nan, _ => nan
  | _, nan => nan
  | infinity s, infinity t => if s = t then infinity s else nan
  | infinity s, finite _ _ _ => infinity s
  | finite _ _ _, infinity t => infinity t
  | finite s1 m1 e1, finite s2 m2 e2 =>
    let e : Int := min e1 e2
    let sum : Int := signed s1 (m1 * 2 ^ (e1 - e).toNat) + signed s2 (m2 * 2 ^ (e2 - e).toNat)
    if sum = 0 then finite (s1 && s2) 0 minExponent
    else roundNearestEven (decide (sum < 0)) sum.natAbs e

/-- Single-precision multiplication: the exact product, rounded; an infinity times a zero
gives a NaN. -/
def mul : btScalar → btScalar → btScalar
  | nan, _ => nan
  | _, nan => nan
  | infinity s, infinity t => infinity (s != t)
  | infinity s, finite t m _ => if m = 0 then nan else infinity (s != t)
  | finite s m _, infinity t => if m = 0 then nan else infinity (s != t)
  | finite s1 m1 e1, finite s2 m2 e2 => roundNearestEven (s1 != s2) (m1 * m2) (e1 + e2)

/-- The sign change. -/
def neg : btScalar → btScalar
  | nan => nan
  | infinity s => infinity (!s)
  | finite s m e => finite (!s) m e

instance : Add btScalar := ⟨add⟩

instance : Mul btScalar := ⟨mul⟩

instance : Neg btScalar := ⟨neg⟩

instance : Sub btScalar := ⟨fun a b => add a (neg b)⟩

instance : Zero btScalar := ⟨finite false 0 minExponent⟩

instance (n : Nat) : OfNat btScalar n := ⟨roundNearestEven false n 0⟩

end btScalar

/-- A dynamic single-precision body with the given committed linear velocity, delta linear
velocity and linear factor; the push velocity is (3,3,3), the angular factor is the linear
one and every other vector is zero. -/
def scalarBody (linearVelocity deltaLinearVelocity linearFactor : btVector3 btScalar) :
    btSolverBody btScalar where
  m_worldTransform := ⟨⟨⟨1, 0, 0⟩, ⟨0, 1, 0⟩, ⟨0, 0, 1⟩⟩, ⟨0, 0, 0⟩⟩
  m_deltaLinearVelocity := deltaLinearVelocity
  m_deltaAngularVelocity := ⟨0, 0, 0⟩
  m_angularFactor := linearFactor
  m_linearFactor := linearFactor
  m_invMass := ⟨1, 1, 1⟩
  m_pushVelocity := ⟨3, 3, 3⟩
  m_turnVelocity := ⟨0, 0, 0⟩
  m_linearVelocity := linearVelocity
  m_angularVelocity := ⟨0, 0, 0⟩
  m_externalForceImpulse := ⟨0, 0, 0⟩
  m_externalTorqueImpulse := ⟨0, 0, 0⟩
  m_originalBody := some 1
  m_originalColObj := some 1
  m_bFixed := false

namespace btVector3

variable {S : Type}

@[simp]
theorem add_x [Add S] (v w : btVector3 S) : (v + w).x = v.x + w.x := rfl
@[simp]
theorem add_y [Add S] (v w : btVector3 S) : (v + w).y = v.y + w.y := rfl
@[simp]
theorem add_z [Add S] (v w : btVector3 S) : (v + w).z = v.z + w.z := rfl

@[simp]
theorem zero_x [Zero S] : (0 : btVector3 S).x = 0 := rfl
@[simp]
theorem zero_y [Zero S] : (0 : btVector3 S).y = 0 := rfl
@[simp]
theorem zero_z [Zero S] : (0 : btVector3 S).z = 0 := rfl

theorem add_eq_mk [Add S] (v w : btVector3 S) :
    v + w = ⟨v.x + w.x, v.y + w.y, v.z + w.z⟩ := rfl

theorem vadd_zero [CommRing S] (v : btVector3 S) : v + 0 = v := by
  ext <;> simp

theorem vadd_right_comm [CommRing S] (u v w : btVector3 S) : u + v + w = u + w + v := by
  ext <;> simp <;> ring

theorem vadd_assoc [CommRing S] (u v w : btVector3 S) : u + v + w = u + (v + w) := by
  ext <;> simp <;> ring

theorem vadd_right_comm_of [Add S] (hadd : ∀ u v w : S, u + v + w = u + w + v)
    (u v w : btVector3 S) : u + v + w = u + w + v := by
  ext <;> simp [hadd]

theorem add_self_eq_scale_two [CommRing S] (v : btVector3 S) : v + v = v.scale 2 := by
  ext <;> simp [scale] <;> ring

end btVector3

/-! ## Basic facts about the protocol -/

namespace btSolverBody

variable {S : Type}

theorem applyImpulse_of_owner [Add S] [Mul S] (b : btSolverBody S) (l a : btVector3 S) (m : S)
    (h : b.m_originalBody.isSome = true) :
    b.applyImpulse l a m =
      { b with
        m_deltaLinearVelocity := b.m_deltaLinearVelocity + (l.scale m).mul b.m_linearFactor
        m_deltaAngularVelocity :=
          b.m_deltaAngularVelocity + a.mul (btVector3.smul m b.m_angularFactor) } := by
  simp [applyImpulse, h]

theorem applyImpulse_of_no_owner [Add S] [Mul S] (b : btSolverBody S) (l a : btVector3 S) (m : S)
    (h : b.m_originalBody = none) : b.applyImpulse l a m = b := by
  simp [applyImpulse, h]

theorem pushImpulse_of_owner [Add S] [Mul S] (b : btSolverBody S) (l a : btVector3 S) (m : S)
    (h : b.m_originalBody.isSome = true) :
    b.internalApplyPushImpulse l a m =
      { b with
        m_pushVelocity := b.m_pushVelocity + (l.scale m).mul b.m_linearFactor
        m_turnVelocity :=
          b.m_turnVelocity + a.mul (btVector3.smul m b.m_angularFactor) } := by
  simp [internalApplyPushImpulse, h]

theorem pushImpulse_of_no_owner [Add S] [Mul S] (b : btSolverBody S) (l a : btVector3 S) (m : S)
    (h : b.m_originalBody = none) : b.internalApplyPushImpulse l a m = b := by
  simp [internalApplyPushImpulse, h]

theorem applyImpulse_twice_of_owner [Add S] [Mul S] (b : btSolverBody S)
    (l1 a1 : btVector3 S) (m1 : S) (l2 a2 : btVector3 S) (m2 : S)
    (h : b.m_originalBody.isSome = true) :
    (b.applyImpulse l1 a1 m1).applyImpulse l2 a2 m2 =
      { b with
        m_deltaLinearVelocity :=
          b.m_deltaLinearVelocity + (l1.scale m1).mul b.m_linearFactor
            + (l2.scale m2).mul b.m_linearFactor
        m_deltaAngularVelocity :=
          b.m_deltaAngularVelocity + a1.mul (btVector3.smul m1 b.m_angularFactor)
            + a2.mul (btVector3.smul m2 b.m_angularFactor) } := by
  have h1 := applyImpulse_of_owner b l1 a1 m1 h
  have h2 : (b.applyImpulse l1 a1 m1).m_originalBody.isSome = true := by rw [h1]; exact h
  rw [applyImpulse_of_owner _ l2 a2 m2 h2, h1]

theorem pushImpulse_twice_of_owner [Add S] [Mul S] (b : btSolverBody S)
    (l1 a1 : btVector3 S) (m1 : S) (l2 a2 : btVector3 S) (m2 : S)
    (h : b.m_originalBody.isSome = true) :
    (b.internalApplyPushImpulse l1 a1 m1).internalApplyPushImpulse l2 a2 m2 =
      { b with
        m_pushVelocity :=
          b.m_pushVelocity + (l1.scale m1).mul b.m_linearFactor
            + (l2.scale m2).mul b.m_linearFactor
        m_turnVelocity :=
          b.m_turnVelocity + a1.mul (btVector3.smul m1 b.m_angularFactor)
            + a2.mul (btVector3.smul m2 b.m_angularFactor) } := by
  have h1 := pushImpulse_of_owner b l1 a1 m1 h
  have h2 : (b.internalApplyPushImpulse l1 a1 m1).m_originalBody.isSome = true := by
    rw [h1]; exact h
  rw [pushImpulse_of_owner _ l2 a2 m2 h2, h1]

theorem writebackVelocity_of_owner [Add S] (b : btSolverBody S)
    (h : b.m_originalBody.isSome = true) :
    b.writebackVelocity =
      { b with
        m_linearVelocity := b.m_linearVelocity + b.m_deltaLinearVelocity
        m_angularVelocity := b.m_angularVelocity + b.m_deltaAngularVelocity } := by
  simp [writebackVelocity, h]

theorem writebackVelocity_of_no_owner [Add S] (b : btSolverBody S)
    (h : b.m_originalBody = none) : b.writebackVelocity = b := by
  simp [writebackVelocity, h]

end btSolverBody

theorem ImpulseCall.run_of_no_owner {S : Type} [Add S] [Mul S] (b : btSolverBody S)
    (c : ImpulseCall S) (h : b.m_originalBody = none) : c.run b = b := by
  cases c with
  | applyImpulse l a m => exact btSolverBody.applyImpulse_of_no_owner b l a m h
  | applyPushImpulse l a m => exact btSolverBody.pushImpulse_of_no_owner b l a m h

theorem runCalls_of_no_owner {S : Type} [Add S] [Mul S] (b : btSolverBody S)
    (cs : List (ImpulseCall S)) (h : b.m_originalBody = none) : runCalls b cs = b := by
  induction cs with
  | nil => rfl
  | cons c cs ih =>
    show runCalls (c.run b) cs = b
    rw [ImpulseCall.run_of_no_owner b c h]
    exact ih

/-! ## The impulse protocol -/

/-- C1: on a dynamic body (one with an owning body) `applyImpulse` leaves
`deltaLinearVelocity` at its old value plus the component-wise product
`linearComponent * magnitude * linearFactor` and `deltaAngularVelocity` at its old value
plus the component-wise product `angularComponent * (magnitude * angularFactor)`. -/
theorem applyImpulse_dynamic_accumulates {S : Type} [Add S] [Mul S] (b : btSolverBody S)
    (linearComponent angularComponent : btVector3 S) (magnitude : S)
    (hdyn : b.m_originalBody.isSome = true) :
    (b.applyImpulse linearComponent angularComponent magnitude).m_deltaLinearVelocity =
        ⟨b.m_deltaLinearVelocity.x + linearComponent.x * magnitude * b.m_linearFactor.x,
         b.m_deltaLinearVelocity.y + linearComponent.y * magnitude * b.m_linearFactor.y,
         b.m_deltaLinearVelocity.z + linearComponent.z * magnitude * b.m_linearFactor.z⟩
    ∧ (b.applyImpulse linearComponent angularComponent magnitude).m_deltaAngularVelocity =
        ⟨b.m_deltaAngularVelocity.x + angularComponent.x * (magnitude * b.m_angularFactor.x),
         b.m_deltaAngularVelocity.y + angularComponent.y * (magnitude * b.m_angularFactor.y),
         b.m_deltaAngularVelocity.z + angularComponent.z * (magnitude * b.m_angularFactor.z)⟩ := by
  rw [btSolverBody.applyImpulse_of_owner b linearComponent angularComponent magnitude hdyn]
  exact ⟨rfl, rfl⟩

/-- Witness of C1 on the moving body with the impulse ((1,1,1), (2,2,2), 3). -/
theorem applyImpulse_dynamic_accumulates_witness :
    movingBody.m_originalBody.isSome = true
    ∧ (movingBody.applyImpulse ⟨1, 1, 1⟩ ⟨2, 2, 2⟩ 3).m_deltaLinearVelocity
        = ⟨1 + 1 * 3 * 1, 2 + 1 * 3 * 1, 3 + 1 * 3 * 0⟩
    ∧ (movingBody.applyImpulse ⟨1, 1, 1⟩ ⟨2, 2, 2⟩ 3).m_deltaAngularVelocity
        = ⟨-1 + 2 * (3 * 1), 4 + 2 * (3 * 0), 2 + 2 * (3 * 1)⟩ :=
  ⟨by decide, applyImpulse_dynamic_accumulates movingBody ⟨1, 1, 1⟩ ⟨2, 2, 2⟩ 3 (by decide)⟩

/-- C2, as stated, fails: a body whose `m_bFixed` flag is set but which has an owning body
starts with its four accumulators at zero, and one `applyImpulse` call makes
`deltaLinearVelocity` non-zero; the following `writebackVelocity` changes the committed
linear velocity. -/
theorem fixed_flag_body_accumulates :
    (restBody (some 1) true).m_bFixed = true
    ∧ (restBody (some 1) true).m_deltaLinearVelocity = ⟨0, 0, 0⟩
    ∧ (restBody (some 1) true).m_deltaAngularVelocity = ⟨0, 0, 0⟩
    ∧ (restBody (some 1) true).m_pushVelocity = ⟨0, 0, 0⟩
    ∧ (restBody (some 1) true).m_turnVelocity = ⟨0, 0, 0⟩
    ∧ (runCalls (restBody (some 1) true)
          [.applyImpulse ⟨1, 0, 0⟩ ⟨0, 0, 0⟩ 5]).m_deltaLinearVelocity = ⟨5, 0, 0⟩
    ∧ (runCalls (restBody (some 1) true)
          [.applyImpulse ⟨1, 0, 0⟩ ⟨0, 0, 0⟩ 5]).m_deltaLinearVelocity ≠ ⟨0, 0, 0⟩
    ∧ (runCalls (restBody (some 1) true)
          [.applyImpulse ⟨1, 0, 0⟩ ⟨0, 0, 0⟩ 5]).writebackVelocity.m_linearVelocity
        ≠ (runCalls (restBody (some 1) true)
          [.applyImpulse ⟨1, 0, 0⟩ ⟨0, 0, 0⟩ 5]).m_linearVelocity := by
  decide

/-- C2, amended: a solver body without an owning body (`m_originalBody` null), whatever its
`m_bFixed` flag, is left as it is by any finite sequence of `applyImpulse` and
`applyPushImpulse` calls; accumulators that start at zero are therefore still zero, and a
following `writebackVelocity` leaves the committed velocities unchanged. -/
theorem ownerless_body_ignores_impulses {S : Type} [Add S] [Mul S] [Zero S]
    (b : btSolverBody S) (cs : List (ImpulseCall S))
    (hown : b.m_originalBody = none)
    (hdl : b.m_deltaLinearVelocity = 0) (hda : b.m_deltaAngularVelocity = 0)
    (hpush : b.m_pushVelocity = 0) (hturn : b.m_turnVelocity = 0) :
    runCalls b cs = b
    ∧ (runCalls b cs).m_deltaLinearVelocity = 0
    ∧ (runCalls b cs).m_deltaAngularVelocity = 0
    ∧ (runCalls b cs).m_pushVelocity = 0
    ∧ (runCalls b cs).m_turnVelocity = 0
    ∧ (runCalls b cs).writebackVelocity.m_linearVelocity = (runCalls b cs).m_linearVelocity
    ∧ (runCalls b cs).writebackVelocity.m_angularVelocity = (runCalls b cs).m_angularVelocity
    ∧ (runCalls b cs).writebackVelocity.m_linearVelocity = b.m_linearVelocity
    ∧ (runCalls b cs).writebackVelocity.m_angularVelocity = b.m_angularVelocity := by
  have hrun : runCalls b cs = b := runCalls_of_no_owner b cs hown
  have hwb : b.writebackVelocity = b := btSolverBody.writebackVelocity_of_no_owner b hown
  rw [hrun, hwb]
  exact ⟨rfl, hdl, hda, hpush, hturn, rfl, rfl, rfl, rfl⟩

/-- Witness of the amended C2: an ownerless body with the fixed flag set, under a push
impulse followed by an impulse. -/
theorem ownerless_body_ignores_impulses_witness :
    runCalls (restBody none true)
        [.applyPushImpulse ⟨1, 2, 3⟩ ⟨4, 5, 6⟩ 7, .applyImpulse ⟨1, 0, 0⟩ ⟨0, 1, 0⟩ 5]
      = restBody none true
    ∧ (runCalls (restBody none true)
        [.applyPushImpulse ⟨1, 2, 3⟩ ⟨4, 5, 6⟩ 7, .applyImpulse ⟨1, 0, 0⟩ ⟨0, 1, 0⟩ 5]
        ).m_deltaLinearVelocity = 0 :=
  have h := ownerless_body_ignores_impulses (restBody none true)
    [.applyPushImpulse ⟨1, 2, 3⟩ ⟨4, 5, 6⟩ 7, .applyImpulse ⟨1, 0, 0⟩ ⟨0, 1, 0⟩ 5]
    rfl rfl rfl rfl rfl
  ⟨h.1, h.2.1⟩

/-- C3, as stated, fails: on a body without an owning body `applyPushImpulse` does not
accumulate, so `pushVelocity` and `turnVelocity` differ from the old value plus the
products of the formula. -/
theorem pushImpulse_skips_ownerless_body :
    ((restBody none false).internalApplyPushImpulse ⟨1, 0, 0⟩ ⟨0, 0, 1⟩ 5).m_pushVelocity
        = ⟨0, 0, 0⟩
    ∧ (restBody none false).m_pushVelocity
          + (btVector3.mk 1 0 0 |>.scale 5).mul (restBody none false).m_linearFactor
        = ⟨5, 0, 0⟩
    ∧ ((restBody none false).internalApplyPushImpulse ⟨1, 0, 0⟩ ⟨0, 0, 1⟩ 5).m_turnVelocity
        = ⟨0, 0, 0⟩
    ∧ (restBody none false).m_turnVelocity
          + (btVector3.mk 0 0 1).mul (btVector3.smul 5 (restBody none false).m_angularFactor)
        = ⟨0, 0, 5⟩
    ∧ ((restBody none false).internalApplyPushImpulse ⟨1, 0, 0⟩ ⟨0, 0, 1⟩ 5).m_pushVelocity
        ≠ (restBody none false).m_pushVelocity
          + (btVector3.mk 1 0 0 |>.scale 5).mul (restBody none false).m_linearFactor
    ∧ ((restBody none false).internalApplyPushImpulse ⟨1, 0, 0⟩ ⟨0, 0, 1⟩ 5).m_turnVelocity
        ≠ (restBody none false).m_turnVelocity
          + (btVector3.mk 0 0 1).mul (btVector3.smul 5 (restBody none false).m_angularFactor) := by
  decide

/-- C3, amended: on a dynamic body `applyPushImpulse` accumulates into `pushVelocity` and
`turnVelocity` with the formula of `applyImpulse`; a body without an owning body is left
as it is; and on every body the two delta velocities, the two committed velocities and
the world transform are unchanged. -/
theorem pushImpulse_accumulates_and_frames {S : Type} [Add S] [Mul S] (b : btSolverBody S)
    (linearComponent angularComponent : btVector3 S) (magnitude : S) :
    (b.m_originalBody.isSome = true →
      (b.internalApplyPushImpulse linearComponent angularComponent magnitude).m_pushVelocity =
          ⟨b.m_pushVelocity.x + linearComponent.x * magnitude * b.m_linearFactor.x,
           b.m_pushVelocity.y + linearComponent.y * magnitude * b.m_linearFactor.y,
           b.m_pushVelocity.z + linearComponent.z * magnitude * b.m_linearFactor.z⟩
      ∧ (b.internalApplyPushImpulse linearComponent angularComponent magnitude).m_turnVelocity =
          ⟨b.m_turnVelocity.x + angularComponent.x * (magnitude * b.m_angularFactor.x),
           b.m_turnVelocity.y + angularComponent.y * (magnitude * b.m_angularFactor.y),
           b.m_turnVelocity.z + angularComponent.z * (magnitude * b.m_angularFactor.z)⟩)
    ∧ (b.m_originalBody = none →
        b.internalApplyPushImpulse linearComponent angularComponent magnitude = b)
    ∧ (b.internalApplyPushImpulse linearComponent angularComponent magnitude).m_deltaLinearVelocity
        = b.m_deltaLinearVelocity
    ∧ (b.internalApplyPushImpulse linearComponent angularComponent magnitude).m_deltaAngularVelocity
        = b.m_deltaAngularVelocity
    ∧ (b.internalApplyPushImpulse linearComponent angularComponent magnitude).m_linearVelocity
        = b.m_linearVelocity
    ∧ (b.internalApplyPushImpulse linearComponent angularComponent magnitude).m_angularVelocity
        = b.m_angularVelocity
    ∧ (b.internalApplyPushImpulse linearComponent angularComponent magnitude).m_worldTransform
        = b.m_worldTransform := by
  refine ⟨?_, btSolverBody.pushImpulse_of_no_owner b _ _ _, ?_⟩
  · intro hdyn
    rw [btSolverBody.pushImpulse_of_owner b linearComponent angularComponent magnitude hdyn]
    exact ⟨rfl, rfl⟩
  · unfold btSolverBody.internalApplyPushImpulse
    split <;> exact ⟨rfl, rfl, rfl, rfl, rfl⟩

/-- Witness of the amended C3 on the moving body with the impulse ((1,1,1), (2,2,2), 3). -/
theorem pushImpulse_accumulates_and_frames_witness :
    movingBody.m_originalBody.isSome = true
    ∧ (movingBody.internalApplyPushImpulse ⟨1, 1, 1⟩ ⟨2, 2, 2⟩ 3).m_pushVelocity
        = ⟨7 + 1 * 3 * 1, 0 + 1 * 3 * 1, -2 + 1 * 3 * 0⟩
    ∧ (movingBody.internalApplyPushImpulse ⟨1, 1, 1⟩ ⟨2, 2, 2⟩ 3).m_turnVelocity
        = ⟨0 + 2 * (3 * 1), 3 + 2 * (3 * 0), 1 + 2 * (3 * 1)⟩ :=
  ⟨by decide,
    (pushImpulse_accumulates_and_frames movingBody ⟨1, 1, 1⟩ ⟨2, 2, 2⟩ 3).1 (by decide)⟩

/-! ## Write-back -/

set_option maxRecDepth 8192 in
/-- C4, as stated, fails in the single precision of `btScalar`: with committed linear
velocity `(2^24,0,0)` and delta `(1,0,0)` each write-back rounds `2^24 + 1` back to
`2^24`, so after two calls the committed velocity is still `(2^24,0,0)`, while the
original plus twice the delta is `(2^24 + 2,0,0)`, which single precision represents. -/
theorem double_writeback_loses_rounded_delta :
    (scalarBody ⟨16777216, 0, 0⟩ ⟨1, 0, 0⟩ ⟨1, 1, 1⟩).m_originalBody.isSome = true
    ∧ (scalarBody ⟨16777216, 0, 0⟩ ⟨1, 0, 0⟩
          ⟨1, 1, 1⟩).writebackVelocity.writebackVelocity.m_linearVelocity = ⟨16777216, 0, 0⟩
    ∧ (scalarBody ⟨16777216, 0, 0⟩ ⟨1, 0, 0⟩ ⟨1, 1, 1⟩).m_linearVelocity
          + (scalarBody ⟨16777216, 0, 0⟩ ⟨1, 0, 0⟩ ⟨1, 1, 1⟩).m_deltaLinearVelocity.scale 2
        = ⟨16777218, 0, 0⟩
    ∧ (scalarBody ⟨16777216, 0, 0⟩ ⟨1, 0, 0⟩ ⟨1, 1, 1⟩).m_linearVelocity
          + ((scalarBody ⟨16777216, 0, 0⟩ ⟨1, 0, 0⟩ ⟨1, 1, 1⟩).m_deltaLinearVelocity
              + (scalarBody ⟨16777216, 0, 0⟩ ⟨1, 0, 0⟩ ⟨1, 1, 1⟩).m_deltaLinearVelocity)
        = ⟨16777218, 0, 0⟩
    ∧ (16777216 : btScalar) ≠ 16777218
    ∧ (scalarBody ⟨16777216, 0, 0⟩ ⟨1, 0, 0⟩
          ⟨1, 1, 1⟩).writebackVelocity.writebackVelocity.m_linearVelocity
        ≠ (scalarBody ⟨16777216, 0, 0⟩ ⟨1, 0, 0⟩ ⟨1, 1, 1⟩).m_linearVelocity
          + (scalarBody ⟨16777216, 0, 0⟩ ⟨1, 0, 0⟩ ⟨1, 1, 1⟩).m_deltaLinearVelocity.scale 2 := by
  decide

/-- C4, amended: on a dynamic body one `writebackVelocity` makes each committed velocity its
old value plus the matching delta and leaves both deltas as they were, so two calls in a
row make each committed velocity the original one with the delta added twice, one
addition after the other: `(original + delta) + delta`; that is the original plus twice
the delta, `original + (delta + delta)`, whenever scalar addition satisfies
`(u + v) + v = u + (v + v)`, as exact arithmetic does. -/
theorem writebackVelocity_adds_delta {S : Type} [Add S] (b : btSolverBody S)
    (hdyn : b.m_originalBody.isSome = true) :
    b.writebackVelocity.m_linearVelocity = b.m_linearVelocity + b.m_deltaLinearVelocity
    ∧ b.writebackVelocity.m_angularVelocity = b.m_angularVelocity + b.m_deltaAngularVelocity
    ∧ b.writebackVelocity.m_deltaLinearVelocity = b.m_deltaLinearVelocity
    ∧ b.writebackVelocity.m_deltaAngularVelocity = b.m_deltaAngularVelocity
    ∧ b.writebackVelocity.writebackVelocity.m_linearVelocity
        = b.m_linearVelocity + b.m_deltaLinearVelocity + b.m_deltaLinearVelocity
    ∧ b.writebackVelocity.writebackVelocity.m_angularVelocity
        = b.m_angularVelocity + b.m_deltaAngularVelocity + b.m_deltaAngularVelocity
    ∧ b.writebackVelocity.writebackVelocity.m_deltaLinearVelocity = b.m_deltaLinearVelocity
    ∧ b.writebackVelocity.writebackVelocity.m_deltaAngularVelocity = b.m_deltaAngularVelocity
    ∧ ((∀ u v : S, u + v + v = u + (v + v)) →
        b.writebackVelocity.writebackVelocity.m_linearVelocity
            = b.m_linearVelocity + (b.m_deltaLinearVelocity + b.m_deltaLinearVelocity)
        ∧ b.writebackVelocity.writebackVelocity.m_angularVelocity
            = b.m_angularVelocity
                + (b.m_deltaAngularVelocity + b.m_deltaAngularVelocity)) := by
  have h1 := btSolverBody.writebackVelocity_of_owner b hdyn
  have hdyn2 : b.writebackVelocity.m_originalBody.isSome = true := by rw [h1]; exact hdyn
  have h2 := btSolverBody.writebackVelocity_of_owner b.writebackVelocity hdyn2
  refine ⟨by rw [h1], by rw [h1], by rw [h1], by rw [h1], by rw [h2, h1], by rw [h2, h1],
    by rw [h2, h1], by rw [h2, h1], fun hassoc => ?_⟩
  rw [h2, h1]
  constructor <;> ext <;> simp [hassoc]

/-- Witness of the amended C4 on the moving body: committed (10,20,30), delta (1,2,3). -/
theorem writebackVelocity_adds_delta_witness :
    movingBody.m_originalBody.isSome = true
    ∧ movingBody.writebackVelocity.m_linearVelocity = ⟨11, 22, 33⟩
    ∧ movingBody.writebackVelocity.writebackVelocity.m_linearVelocity = ⟨12, 24, 36⟩ :=
  have h := writebackVelocity_adds_delta movingBody (by decide)
  ⟨by decide, h.1, h.2.2.2.2.1⟩

/-- C5, as stated, fails twice over. Both bodies are dynamic, have `invMass = (1,1,1)` and
zero committed velocity. The one whose `linearFactor` is zero ends with committed linear
velocity `(0,0,0)`; the one whose `deltaLinearVelocity` starts at `(1,2,3)` ends with
`(1,12,3)`; neither is `(0,10,0)`. -/
theorem impulse_scenario_needs_factor_and_zero_delta :
    (lockedBody.m_originalBody.isSome = true
      ∧ lockedBody.m_invMass = ⟨1, 1, 1⟩
      ∧ lockedBody.m_linearVelocity = ⟨0, 0, 0⟩
      ∧ lockedBody.m_angularVelocity = ⟨0, 0, 0⟩
      ∧ (lockedBody.applyImpulse ⟨0, 1, 0⟩ ⟨0, 0, 0⟩ 10).writebackVelocity.m_linearVelocity
          = ⟨0, 0, 0⟩
      ∧ (lockedBody.applyImpulse ⟨0, 1, 0⟩ ⟨0, 0, 0⟩ 10).writebackVelocity.m_linearVelocity
          ≠ ⟨0, 10, 0⟩)
    ∧ (preloadedBody.m_originalBody.isSome = true
      ∧ preloadedBody.m_invMass = ⟨1, 1, 1⟩
      ∧ preloadedBody.m_linearVelocity = ⟨0, 0, 0⟩
      ∧ preloadedBody.m_angularVelocity = ⟨0, 0, 0⟩
      ∧ (preloadedBody.applyImpulse ⟨0, 1, 0⟩ ⟨0, 0, 0⟩ 10).writebackVelocity.m_linearVelocity
          = ⟨1, 12, 3⟩
      ∧ (preloadedBody.applyImpulse ⟨0, 1, 0⟩ ⟨0, 0, 0⟩ 10).writebackVelocity.m_linearVelocity
          ≠ ⟨0, 10, 0⟩) := by
  decide

/-- C5, amended: a dynamic body with `invMass = (1,1,1)`, a `linearFactor` whose y component
is 1 (such as `(1,1,1)`), zero `deltaLinearVelocity` and zero committed linear velocity
has committed linear velocity `(0,10,0)` after `applyImpulse((0,1,0), (0,0,0), 10)`
followed by `writebackVelocity`. -/
theorem impulse_scenario_commits_ten {S : Type} [CommRing S] (b : btSolverBody S)
    (hdyn : b.m_originalBody.isSome = true)
    (_hinv : b.m_invMass = ⟨1, 1, 1⟩)
    (hfac : b.m_linearFactor.y = 1)
    (hdelta : b.m_deltaLinearVelocity = ⟨0, 0, 0⟩)
    (hlin : b.m_linearVelocity = ⟨0, 0, 0⟩) :
    (b.applyImpulse ⟨0, 1, 0⟩ ⟨0, 0, 0⟩ 10).writebackVelocity.m_linearVelocity = ⟨0, 10, 0⟩ := by
  have h1 := btSolverBody.applyImpulse_of_owner b ⟨0, 1, 0⟩ ⟨0, 0, 0⟩ 10 hdyn
  have hdyn2 : (b.applyImpulse ⟨0, 1, 0⟩ ⟨0, 0, 0⟩ 10).m_originalBody.isSome = true := by
    rw [h1]; exact hdyn
  rw [btSolverBody.writebackVelocity_of_owner _ hdyn2, h1]
  simp only [hdelta, hlin]
  ext <;> simp [btVector3.scale, btVector3.mul, hfac]

/-- Witness of the amended C5 on the dynamic body at rest. -/
theorem impulse_scenario_commits_ten_witness :
    (restBody (some 1) false).m_originalBody.isSome = true
    ∧ (restBody (some 1) false).m_invMass = ⟨1, 1, 1⟩
    ∧ (restBody (some 1) false).m_linearFactor.y = 1
    ∧ ((restBody (some 1) false).applyImpulse
          ⟨0, 1, 0⟩ ⟨0, 0, 0⟩ 10).writebackVelocity.m_linearVelocity = ⟨0, 10, 0⟩ :=
  ⟨by decide, rfl, rfl,
    impulse_scenario_commits_ten (restBody (some 1) false) (by decide) rfl rfl rfl rfl⟩

/-! ## Order of impulses and axis locks -/

set_option maxRecDepth 8192 in
/-- C6, as stated, fails in the single precision of `btScalar`: on a dynamic body with unit
linear factor and `deltaLinearVelocity = (2^24,0,0)`, the impulse `((1,0,0), 0, 1)`
followed by `((-2^24,0,0), 0, 1)` leaves the delta at `(0,0,0)`, because `2^24 + 1`
rounds to `2^24`, and the other order leaves it at `(1,0,0)`. -/
theorem impulse_order_changes_rounded_delta :
    (((scalarBody ⟨0, 0, 0⟩ ⟨16777216, 0, 0⟩ ⟨1, 1, 1⟩).applyImpulse ⟨1, 0, 0⟩ ⟨0, 0, 0⟩
          1).applyImpulse ⟨-16777216, 0, 0⟩ ⟨0, 0, 0⟩ 1).m_deltaLinearVelocity = ⟨0, 0, 0⟩
    ∧ (((scalarBody ⟨0, 0, 0⟩ ⟨16777216, 0, 0⟩ ⟨1, 1, 1⟩).applyImpulse ⟨-16777216, 0, 0⟩
          ⟨0, 0, 0⟩ 1).applyImpulse ⟨1, 0, 0⟩ ⟨0, 0, 0⟩ 1).m_deltaLinearVelocity = ⟨1, 0, 0⟩
    ∧ (0 : btScalar) ≠ 1
    ∧ (((scalarBody ⟨0, 0, 0⟩ ⟨16777216, 0, 0⟩ ⟨1, 1, 1⟩).applyImpulse ⟨1, 0, 0⟩ ⟨0, 0, 0⟩
          1).applyImpulse ⟨-16777216, 0, 0⟩ ⟨0, 0, 0⟩ 1).m_deltaLinearVelocity
        ≠ (((scalarBody ⟨0, 0, 0⟩ ⟨16777216, 0, 0⟩ ⟨1, 1, 1⟩).applyImpulse ⟨-16777216, 0, 0⟩
          ⟨0, 0, 0⟩ 1).applyImpulse ⟨1, 0, 0⟩ ⟨0, 0, 0⟩ 1).m_deltaLinearVelocity := by
  decide

/-- C6, amended: on a body without an owning body two impulses in either order leave the
body as it is; on a dynamic body the first order leaves each accumulator at
`(old + t1) + t2` and the second at `(old + t2) + t1`, where `t1` and `t2` are the terms
the two impulses add; so whenever scalar addition satisfies `(u + v) + w = (u + w) + v`,
as exact arithmetic does, both orders give the same `deltaLinearVelocity` and
`deltaAngularVelocity` with `applyImpulse` and the same `pushVelocity` and `turnVelocity`
with `applyPushImpulse` (indeed the same body). -/
theorem impulses_commute {S : Type} [Add S] [Mul S] (b : btSolverBody S)
    (l1 a1 : btVector3 S) (m1 : S) (l2 a2 : btVector3 S) (m2 : S) :
    (b.m_originalBody = none →
      (b.applyImpulse l1 a1 m1).applyImpulse l2 a2 m2 = b
      ∧ (b.internalApplyPushImpulse l1 a1 m1).internalApplyPushImpulse l2 a2 m2 = b)
    ∧ (b.m_originalBody.isSome = true →
      ((b.applyImpulse l1 a1 m1).applyImpulse l2 a2 m2).m_deltaLinearVelocity
          = b.m_deltaLinearVelocity + (l1.scale m1).mul b.m_linearFactor
              + (l2.scale m2).mul b.m_linearFactor
      ∧ ((b.applyImpulse l1 a1 m1).applyImpulse l2 a2 m2).m_deltaAngularVelocity
          = b.m_deltaAngularVelocity + a1.mul (btVector3.smul m1 b.m_angularFactor)
              + a2.mul (btVector3.smul m2 b.m_angularFactor)
      ∧ ((b.internalApplyPushImpulse l1 a1 m1).internalApplyPushImpulse l2 a2
            m2).m_pushVelocity
          = b.m_pushVelocity + (l1.scale m1).mul b.m_linearFactor
              + (l2.scale m2).mul b.m_linearFactor
      ∧ ((b.internalApplyPushImpulse l1 a1 m1).internalApplyPushImpulse l2 a2
            m2).m_turnVelocity
          = b.m_turnVelocity + a1.mul (btVector3.smul m1 b.m_angularFactor)
              + a2.mul (btVector3.smul m2 b.m_angularFactor))
    ∧ ((∀ u v w : S, u + v + w = u + w + v) →
      ((b.applyImpulse l1 a1 m1).applyImpulse l2 a2 m2).m_deltaLinearVelocity
          = ((b.applyImpulse l2 a2 m2).applyImpulse l1 a1 m1).m_deltaLinearVelocity
      ∧ ((b.applyImpulse l1 a1 m1).applyImpulse l2 a2 m2).m_deltaAngularVelocity
          = ((b.applyImpulse l2 a2 m2).applyImpulse l1 a1 m1).m_deltaAngularVelocity
      ∧ ((b.internalApplyPushImpulse l1 a1 m1).internalApplyPushImpulse l2 a2
            m2).m_pushVelocity
          = ((b.internalApplyPushImpulse l2 a2 m2).internalApplyPushImpulse l1 a1
            m1).m_pushVelocity
      ∧ ((b.internalApplyPushImpulse l1 a1 m1).internalApplyPushImpulse l2 a2
            m2).m_turnVelocity
          = ((b.internalApplyPushImpulse l2 a2 m2).internalApplyPushImpulse l1 a1
            m1).m_turnVelocity
      ∧ (b.applyImpulse l1 a1 m1).applyImpulse l2 a2 m2
          = (b.applyImpulse l2 a2 m2).applyImpulse l1 a1 m1
      ∧ (b.internalApplyPushImpulse l1 a1 m1).internalApplyPushImpulse l2 a2 m2
          = (b.internalApplyPushImpulse l2 a2 m2).internalApplyPushImpulse l1 a1 m1) := by
  refine ⟨fun hn => ?_, fun h => ?_, fun hadd => ?_⟩
  · simp only [btSolverBody.applyImpulse_of_no_owner b _ _ _ hn,
      btSolverBody.pushImpulse_of_no_owner b _ _ _ hn, and_self]
  · rw [btSolverBody.applyImpulse_twice_of_owner b l1 a1 m1 l2 a2 m2 h,
      btSolverBody.pushImpulse_twice_of_owner b l1 a1 m1 l2 a2 m2 h]
    exact ⟨rfl, rfl, rfl, rfl⟩
  · have hI : (b.applyImpulse l1 a1 m1).applyImpulse l2 a2 m2
        = (b.applyImpulse l2 a2 m2).applyImpulse l1 a1 m1 := by
      by_cases h : b.m_originalBody.isSome = true
      · rw [btSolverBody.applyImpulse_twice_of_owner b l1 a1 m1 l2 a2 m2 h,
          btSolverBody.applyImpulse_twice_of_owner b l2 a2 m2 l1 a1 m1 h,
          btVector3.vadd_right_comm_of hadd b.m_deltaLinearVelocity,
          btVector3.vadd_right_comm_of hadd b.m_deltaAngularVelocity]
      · have hn : b.m_originalBody = none := by simpa using h
        simp only [btSolverBody.applyImpulse_of_no_owner b _ _ _ hn]
    have hP : (b.internalApplyPushImpulse l1 a1 m1).internalApplyPushImpulse l2 a2 m2
        = (b.internalApplyPushImpulse l2 a2 m2).internalApplyPushImpulse l1 a1 m1 := by
      by_cases h : b.m_originalBody.isSome = true
      · rw [btSolverBody.pushImpulse_twice_of_owner b l1 a1 m1 l2 a2 m2 h,
          btSolverBody.pushImpulse_twice_of_owner b l2 a2 m2 l1 a1 m1 h,
          btVector3.vadd_right_comm_of hadd b.m_pushVelocity,
          btVector3.vadd_right_comm_of hadd b.m_turnVelocity]
      · have hn : b.m_originalBody = none := by simpa using h
        simp only [btSolverBody.pushImpulse_of_no_owner b _ _ _ hn]
    exact ⟨by rw [hI], by rw [hI], by rw [hP], by rw [hP], hI, hP⟩

/-- Witness of the amended C6 over the integers, whose addition satisfies the law: two
impulses on the moving body, in both orders. -/
theorem impulses_commute_witness :
    (∀ u v w : ℤ, u + v + w = u + w + v)
    ∧ ((movingBody.applyImpulse ⟨1, 1, 1⟩ ⟨2, 2, 2⟩ 3).applyImpulse ⟨4, 0, 1⟩ ⟨0, 5, 0⟩
          2).m_deltaLinearVelocity
        = ((movingBody.applyImpulse ⟨4, 0, 1⟩ ⟨0, 5, 0⟩ 2).applyImpulse ⟨1, 1, 1⟩ ⟨2, 2, 2⟩
          3).m_deltaLinearVelocity
    ∧ ((movingBody.applyImpulse ⟨1, 1, 1⟩ ⟨2, 2, 2⟩ 3).applyImpulse ⟨4, 0, 1⟩ ⟨0, 5, 0⟩
          2).m_deltaLinearVelocity = ⟨12, 5, 3⟩ :=
  ⟨fun u v w => Int.add_right_comm u v w,
    ((impulses_commute movingBody ⟨1, 1, 1⟩ ⟨2, 2, 2⟩ 3 ⟨4, 0, 1⟩ ⟨0, 5, 0⟩ 2).2.2
      (fun u v w => Int.add_right_comm u v w)).1,
    by decide⟩

/-- C8: when `pushVelocity` and `turnVelocity` both pass the near-zero test,
`writebackVelocityAndTransform` leaves `worldTransform` equal to its previous value, for
every body, time step and turn ERP, whatever the near-zero test and the integrator are. -/
theorem writebackVelocityAndTransform_keeps_transform {S : Type} [Add S] [Mul S]
    (fuzzyZero : btVector3 S → Bool)
    (integrateTransform : btTransform S → btVector3 S → btVector3 S → S → btTransform S)
    (b : btSolverBody S) (timeStep splitImpulseTurnErp : S)
    (hpush : fuzzyZero b.m_pushVelocity = true) (hturn : fuzzyZero b.m_turnVelocity = true) :
    (b.writebackVelocityAndTransform fuzzyZero integrateTransform timeStep
        splitImpulseTurnErp).m_worldTransform = b.m_worldTransform := by
  unfold btSolverBody.writebackVelocityAndTransform
  split
  · simp [hpush, hturn]
  · rfl

/-- Witness of C8: the moving body with both split-impulse velocities set to zero, under
an integrator that would move the origin. -/
theorem writebackVelocityAndTransform_keeps_transform_witness :
    exactZero ({ movingBody with m_pushVelocity := ⟨0, 0, 0⟩, m_turnVelocity := ⟨0, 0, 0⟩ }
        : btSolverBody ℤ).m_pushVelocity = true
    ∧ (({ movingBody with m_pushVelocity := ⟨0, 0, 0⟩, m_turnVelocity := ⟨0, 0, 0⟩ }
        : btSolverBody ℤ).writebackVelocityAndTransform exactZero shiftOrigin 3 1).m_worldTransform
        = movingBody.m_worldTransform :=
  ⟨by decide,
    writebackVelocityAndTransform_keeps_transform exactZero shiftOrigin
      { movingBody with m_pushVelocity := ⟨0, 0, 0⟩, m_turnVelocity := ⟨0, 0, 0⟩ } 3 1
      (by decide) (by decide)⟩

/-- C9: `writebackVelocityAndTransform` leaves the two committed velocities and the two
delta velocities exactly as `writebackVelocity` does on the same state: committed plus
delta on a dynamic body, nothing on a body without an owning body; the outcome does not
depend on the near-zero test, the integrator, the time step or the turn ERP. -/
theorem writebackVelocityAndTransform_velocity_as_writeback {S : Type} [Add S] [Mul S]
    (fuzzyZero : btVector3 S → Bool)
    (integrateTransform : btTransform S → btVector3 S → btVector3 S → S → btTransform S)
    (b : btSolverBody S) (timeStep splitImpulseTurnErp : S) :
    (b.writebackVelocityAndTransform fuzzyZero integrateTransform timeStep
        splitImpulseTurnErp).m_linearVelocity = b.writebackVelocity.m_linearVelocity
    ∧ (b.writebackVelocityAndTransform fuzzyZero integrateTransform timeStep
        splitImpulseTurnErp).m_angularVelocity = b.writebackVelocity.m_angularVelocity
    ∧ (b.writebackVelocityAndTransform fuzzyZero integrateTransform timeStep
        splitImpulseTurnErp).m_deltaLinearVelocity = b.writebackVelocity.m_deltaLinearVelocity
    ∧ (b.writebackVelocityAndTransform fuzzyZero integrateTransform timeStep
        splitImpulseTurnErp).m_deltaAngularVelocity = b.writebackVelocity.m_deltaAngularVelocity
    ∧ (b.writebackVelocityAndTransform fuzzyZero integrateTransform timeStep
        splitImpulseTurnErp).m_linearVelocity
        = (if b.m_originalBody.isSome then b.m_linearVelocity + b.m_deltaLinearVelocity
            else b.m_linearVelocity)
    ∧ (b.writebackVelocityAndTransform fuzzyZero integrateTransform timeStep
        splitImpulseTurnErp).m_angularVelocity
        = (if b.m_originalBody.isSome then b.m_angularVelocity + b.m_deltaAngularVelocity
            else b.m_angularVelocity)
    ∧ (b.writebackVelocityAndTransform fuzzyZero integrateTransform timeStep
        splitImpulseTurnErp).m_deltaLinearVelocity = b.m_deltaLinearVelocity
    ∧ (b.writebackVelocityAndTransform fuzzyZero integrateTransform timeStep
        splitImpulseTurnErp).m_deltaAngularVelocity = b.m_deltaAngularVelocity := by
  unfold btSolverBody.writebackVelocityAndTransform btSolverBody.writebackVelocity
  by_cases h : b.m_originalBody.isSome = true
  · simp only [h, if_true]
    split <;> exact ⟨rfl, rfl, rfl, rfl, rfl, rfl, rfl, rfl⟩
  · simp [h]

/-! ## Velocity queries -/

/-- C10: `velocityAtPoint` (`getVelocityInLocalPointNoDelta`) yields
`committedLinearVelocity + externalForceImpulse + (committedAngularVelocity +
externalTorqueImpulse) × relativePosition` on a dynamic body and the zero vector on a body
without an owning body, and hands the body back with no field changed. -/
theorem getVelocityInLocalPointNoDelta_value {S : Type} [Add S] [Mul S] [Sub S] [Zero S]
    (b : btSolverBody S) (relativePosition : btVector3 S) :
    (b.m_originalBody.isSome = true →
      (b.getVelocityInLocalPointNoDelta relativePosition).2
        = b.m_linearVelocity + b.m_externalForceImpulse
            + (b.m_angularVelocity + b.m_externalTorqueImpulse).cross relativePosition)
    ∧ (b.m_originalBody = none →
      (b.getVelocityInLocalPointNoDelta relativePosition).2 = ⟨0, 0, 0⟩)
    ∧ (b.getVelocityInLocalPointNoDelta relativePosition).1 = b := by
  unfold btSolverBody.getVelocityInLocalPointNoDelta
  refine ⟨fun h => ?_, fun h => ?_, ?_⟩
  · simp [h]
  · simp [h]; rfl
  · split <;> rfl

/-- Witness of C10 on the moving body at the relative position (1,2,3):
`(10,20,30) + (0,-9,0) + ((5,-6,7) + (2,2,-3)) × (1,2,3) = (-10,-6,48)`. -/
theorem getVelocityInLocalPointNoDelta_value_witness :
    movingBody.m_originalBody.isSome = true
    ∧ (movingBody.getVelocityInLocalPointNoDelta ⟨1, 2, 3⟩).2 = ⟨-10, -6, 48⟩
    ∧ (restBody none false).m_originalBody = none
    ∧ ((restBody none false).getVelocityInLocalPointNoDelta ⟨1, 2, 3⟩).2 = ⟨0, 0, 0⟩ :=
  ⟨by decide,
    (getVelocityInLocalPointNoDelta_value movingBody ⟨1, 2, 3⟩).1 (by decide),
    rfl,
    (getVelocityInLocalPointNoDelta_value (restBody none false) ⟨1, 2, 3⟩).2.1 rfl⟩

/-! ## The loop of Tick -/

namespace CPhysicsMotionController

variable {S V : Type}

theorem eraseIdx_take_of_lt {α : Type} (l : List α) (i : Nat) (hi : i < l.length) :
    (l.eraseIdx i).take i = l.take i ∧ (l.eraseIdx i).drop i = l.drop (i + 1) := by
  have hlen : (l.take i).length = i := by simp; omega
  rw [List.eraseIdx_eq_take_drop_succ]
  exact ⟨List.take_left' hlen, List.drop_left' hlen⟩

/-- The loop from index `i` keeps the first `i` entries, drops the null entries among the
others and simulates the non-null ones from left to right. -/
theorem tickLoop_eq [Add S] [Mul S] (cv : Convert S V) (handler : IMotionEvent S V)
    (deltaTime : S) (n : Nat) :
    ∀ (i : Nat) (c : CPhysicsMotionController S V) (w : World S),
      c.m_objectList.length - i = n →
      tickLoop cv handler deltaTime i c w =
        ({ c with
            m_objectList :=
              c.m_objectList.take i ++ (c.m_objectList.drop i).filter Option.isSome },
         ((c.m_objectList.drop i).reduceOption).foldl
            (fun w p => simulateObject cv handler deltaTime p w) w) := by
  induction n with
  | zero =>
    intro i c w hn
    have hle : c.m_objectList.length ≤ i := by omega
    rw [tickLoop]
    simp [Nat.not_lt.mpr hle, List.drop_eq_nil_of_le hle, List.take_of_length_le hle]
  | succ n ih =>
    intro i c w hn
    have hi : i < c.m_objectList.length := by omega
    rw [tickLoop]
    simp only [hi, dif_pos]
    have hdrop : c.m_objectList.drop i = c.m_objectList[i] :: c.m_objectList.drop (i + 1) :=
      List.drop_eq_getElem_cons hi
    split
    · rename_i hnone
      have h2 := eraseIdx_take_of_lt c.m_objectList i hi
      rw [ih i _ w (by
        simp only [CUtlVector.Remove, List.length_eraseIdx_of_lt hi]
        omega)]
      simp only [CUtlVector.Remove, h2.1, h2.2]
      rw [hdrop, hnone]
      simp
    · rename_i p hsome
      rw [ih (i + 1) c _ (by omega)]
      rw [hdrop, hsome]
      simp [List.take_succ, List.getElem?_eq_getElem hi, hsome]

theorem Tick_of_no_handler [Add S] [Mul S] (cv : Convert S V)
    (c : CPhysicsMotionController S V) (w : World S) (deltaTime : S)
    (h : c.m_handler = none) : c.Tick cv w deltaTime = (c, w) := by
  simp [Tick, h]

theorem Tick_of_handler [Add S] [Mul S] (cv : Convert S V)
    (c : CPhysicsMotionController S V) (w : World S) (deltaTime : S)
    (handler : IMotionEvent S V) (h : c.m_handler = some handler) :
    c.Tick cv w deltaTime =
      ({ c with m_objectList := c.m_objectList.filter Option.isSome },
       simulateAll cv handler deltaTime c.m_objectList.reduceOption w) := by
  simp only [Tick, h]
  rw [tickLoop_eq cv handler deltaTime _ 0 c w rfl]
  simp [simulateAll, h]

theorem simulateAll_nil [Add S] [Mul S] (cv : Convert S V) (handler : IMotionEvent S V)
    (deltaTime : S) (w : World S) : simulateAll cv handler deltaTime [] w = w := rfl

theorem simulateAll_cons [Add S] [Mul S] (cv : Convert S V) (handler : IMotionEvent S V)
    (deltaTime : S) (p : Nat) (ps : List Nat) (w : World S) :
    simulateAll cv handler deltaTime (p :: ps) w
      = simulateAll cv handler deltaTime ps (simulateObject cv handler deltaTime p w) := rfl

theorem simulateAll_calls [Add S] [Mul S] (cv : Convert S V) (handler : IMotionEvent S V)
    (deltaTime : S) (ps : List Nat) :
    ∀ w : World S,
      (simulateAll cv handler deltaTime ps w).simulateCalls = w.simulateCalls ++ ps := by
  induction ps with
  | nil => intro w; simp [simulateAll_nil]
  | cons p ps ih =>
    intro w
    rw [simulateAll_cons, ih]
    simp [simulateObject]

theorem simulateAll_bodies [Add S] [Mul S] (cv : Convert S V) (handler : IMotionEvent S V)
    (deltaTime : S) (q : Nat) (ps : List Nat) :
    ∀ w : World S,
      (simulateAll cv handler deltaTime ps w).bodies q
        = (objectStep cv handler deltaTime q)^[ps.count q] (w.bodies q) := by
  induction ps with
  | nil => intro w; simp [simulateAll_nil]
  | cons p ps ih =>
    intro w
    rw [simulateAll_cons, ih]
    by_cases hpq : p = q
    · subst hpq
      simp [simulateObject, objectStep]
    · have hqp : q ≠ p := fun h => hpq h.symm
      simp [simulateObject, List.count_cons, hpq, Function.update_noteq hqp]

theorem simulateAll_warnings_mono [Add S] [Mul S] (cv : Convert S V)
    (handler : IMotionEvent S V) (deltaTime : S) (v : Int) (ps : List Nat) :
    ∀ w : World S, v ∈ w.warnings → v ∈ (simulateAll cv handler deltaTime ps w).warnings := by
  induction ps with
  | nil => intro w hv; exact hv
  | cons p ps ih =>
    intro w hv
    rw [simulateAll_cons]
    apply ih
    simp [simulateObject, hv]

theorem simulateAll_warnings_mem [Add S] [Mul S] (cv : Convert S V)
    (handler : IMotionEvent S V) (deltaTime : S) (v : Int) (q : Nat)
    (hq : (handler.Simulate q deltaTime).1 = .outOfRange v) (ps : List Nat) :
    ∀ w : World S, q ∈ ps → v ∈ (simulateAll cv handler deltaTime ps w).warnings := by
  induction ps with
  | nil => intro w h; simp at h
  | cons p ps ih =>
    intro w h
    rw [simulateAll_cons]
    rcases List.mem_cons.mp h with rfl | h
    · apply simulateAll_warnings_mono
      simp [simulateObject, hq, reported]
    · exact ih _ h

theorem count_reduceOption (l : List (Option Nat)) (q : Nat) :
    l.reduceOption.count q = l.count (some q) := by
  induction l with
  | nil => simp
  | cons a l ih =>
    cases a with
    | none => simp [List.reduceOption_cons_of_none, ih]
    | some p =>
      rw [List.reduceOption_cons_of_some, List.count_cons, List.count_cons, ih]
      simp

theorem mem_reduceOption_iff (l : List (Option Nat)) (q : Nat) :
    q ∈ l.reduceOption ↔ some q ∈ l := by
  simp [List.reduceOption]

end CPhysicsMotionController

/-! ## Velocity queries during the solve -/

/-- C11: `velocityAtPointWithDelta` (`getVelocityInLocalPointObsolete`) yields what
`velocityAtPoint` yields on the same body with `externalForceImpulse` replaced by
`deltaLinearVelocity` and `externalTorqueImpulse` replaced by `deltaAngularVelocity`, and
`angularVelocity()` yields `committedAngularVelocity + deltaAngularVelocity` on a dynamic
body and the zero vector on a body without an owning body. -/
theorem getVelocityInLocalPointObsolete_as_noDelta {S : Type} [Add S] [Mul S] [Sub S] [Zero S]
    (b : btSolverBody S) (relativePosition : btVector3 S) :
    (b.getVelocityInLocalPointObsolete relativePosition).2
        = (({ b with
              m_externalForceImpulse := b.m_deltaLinearVelocity
              m_externalTorqueImpulse := b.m_deltaAngularVelocity } : btSolverBody S
            ).getVelocityInLocalPointNoDelta relativePosition).2
    ∧ (b.m_originalBody.isSome = true →
        b.getAngularVelocity.2 = b.m_angularVelocity + b.m_deltaAngularVelocity)
    ∧ (b.m_originalBody = none → b.getAngularVelocity.2 = ⟨0, 0, 0⟩)
    ∧ (b.getVelocityInLocalPointObsolete relativePosition).1 = b
    ∧ b.getAngularVelocity.1 = b := by
  unfold btSolverBody.getVelocityInLocalPointObsolete
    btSolverBody.getVelocityInLocalPointNoDelta btSolverBody.getAngularVelocity
  refine ⟨?_, fun h => ?_, fun h => ?_, ?_, ?_⟩
  · by_cases h : b.m_originalBody.isSome = true <;> simp [h]
  · simp [h]
  · simp [h]; rfl
  · split <;> rfl
  · split <;> rfl

/-- Witness of C11 on the moving body (committed angular (5,-6,7), delta (-1,4,2)) and on
a body without an owning body. -/
theorem getVelocityInLocalPointObsolete_as_noDelta_witness :
    movingBody.m_originalBody.isSome = true
    ∧ movingBody.getAngularVelocity.2 = ⟨4, -2, 9⟩
    ∧ (restBody none false).m_originalBody = none
    ∧ (restBody none false).getAngularVelocity.2 = ⟨0, 0, 0⟩
    ∧ (movingBody.getVelocityInLocalPointObsolete ⟨1, 2, 3⟩).2 = ⟨-13, 19, 43⟩ :=
  ⟨by decide,
    (getVelocityInLocalPointObsolete_as_noDelta movingBody ⟨1, 2, 3⟩).2.1 (by decide),
    rfl,
    (getVelocityInLocalPointObsolete_as_noDelta (restBody none false) ⟨1, 2, 3⟩).2.2.1 rfl,
    by decide⟩

/-- C20: on a dynamic body the mid-solve query `velocityAtPointWithDelta`
(`getVelocityInLocalPointObsolete`) taken before `writebackVelocity` equals
`committedLinearVelocity + committedAngularVelocity × relativePosition` taken after it. -/
theorem velocity_seen_is_velocity_committed {S : Type} [Add S] [Mul S] [Sub S] [Zero S]
    (b : btSolverBody S) (relativePosition : btVector3 S)
    (hdyn : b.m_originalBody.isSome = true) :
    (b.getVelocityInLocalPointObsolete relativePosition).2
      = b.writebackVelocity.m_linearVelocity
          + b.writebackVelocity.m_angularVelocity.cross relativePosition := by
  rw [btSolverBody.writebackVelocity_of_owner b hdyn]
  simp [btSolverBody.getVelocityInLocalPointObsolete, hdyn]

/-- Witness of C20 on the moving body at the relative position (1,2,3). -/
theorem velocity_seen_is_velocity_committed_witness :
    movingBody.m_originalBody.isSome = true
    ∧ (movingBody.getVelocityInLocalPointObsolete ⟨1, 2, 3⟩).2
        = movingBody.writebackVelocity.m_linearVelocity
            + movingBody.writebackVelocity.m_angularVelocity.cross ⟨1, 2, 3⟩
    ∧ movingBody.writebackVelocity.m_linearVelocity
            + movingBody.writebackVelocity.m_angularVelocity.cross ⟨1, 2, 3⟩ = ⟨-13, 19, 43⟩ :=
  ⟨by decide, velocity_seen_is_velocity_committed movingBody ⟨1, 2, 3⟩ (by decide), by decide⟩

/-! ## Facts about the object list -/

namespace CUtlVector

variable {α : Type}

theorem FindFrom_cases [DecidableEq α] (x : α) :
    ∀ (l : List α) (i : Nat),
      (x ∉ l ∧ FindFrom l x i = -1)
      ∨ (∃ pre post, l = pre ++ x :: post ∧ x ∉ pre
          ∧ FindFrom l x i = ((i + pre.length : Nat) : Int)) := by
  intro l
  induction l with
  | nil => intro i; exact Or.inl ⟨by simp, rfl⟩
  | cons a rest ih =>
    intro i
    by_cases hax : a = x
    · refine Or.inr ⟨[], rest, by simp [hax], by simp, ?_⟩
      simp [FindFrom, hax]
    · rcases ih (i + 1) with ⟨hnot, hval⟩ | ⟨pre, post, hl, hpre, hval⟩
      · refine Or.inl ⟨?_, ?_⟩
        · simp [hnot, Ne.symm hax]
        · simp [FindFrom, hax, hval]
      · refine Or.inr ⟨a :: pre, post, by simp [hl], ?_, ?_⟩
        · simp [hpre, Ne.symm hax]
        · simp only [FindFrom, hax, if_false, hval, List.length_cons]
          congr 1
          omega

theorem Find_cases [DecidableEq α] (l : List α) (x : α) :
    (x ∉ l ∧ Find l x = -1)
    ∨ (∃ pre post, l = pre ++ x :: post ∧ x ∉ pre ∧ Find l x = (pre.length : Int)) := by
  rcases FindFrom_cases x l 0 with h | ⟨pre, post, hl, hpre, hval⟩
  · exact Or.inl h
  · exact Or.inr ⟨pre, post, hl, hpre, by simpa [Find] using hval⟩

theorem Find_ne_neg_one_iff [DecidableEq α] (l : List α) (x : α) : Find l x ≠ -1 ↔ x ∈ l := by
  rcases Find_cases l x with ⟨hnot, hval⟩ | ⟨pre, post, hl, _, hval⟩
  · simp [hnot, hval]
  · have hmem : x ∈ l := by rw [hl]; simp
    have hne : Find l x ≠ -1 := by rw [hval]; omega
    simp [hmem, hne]

theorem Remove_first {α : Type} (pre post : List α) (x : α) :
    Remove (pre ++ x :: post) pre.length = pre ++ post := by
  simp [Remove, List.eraseIdx_append_of_length_le]

end CUtlVector

theorem first_split_unique {α : Type} (x : α) :
    ∀ (pre pre2 post post2 : List α), x ∉ pre → x ∉ pre2 →
      pre ++ x :: post = pre2 ++ x :: post2 → pre = pre2 ∧ post = post2 := by
  intro pre
  induction pre with
  | nil =>
    intro pre2 post post2 _ h2 h
    cases pre2 with
    | nil => simpa using h
    | cons b pre2 =>
      simp only [List.nil_append, List.cons_append, List.cons.injEq] at h
      exact absurd (by simp [h.1]) h2
  | cons a pre ih =>
    intro pre2 post post2 h1 h2 h
    cases pre2 with
    | nil =>
      simp only [List.nil_append, List.cons_append, List.cons.injEq] at h
      exact absurd (by simp [h.1]) h1
    | cons b pre2 =>
      simp only [List.cons_append, List.cons.injEq] at h
      have h1a : x ∉ pre := fun hx => h1 (List.mem_cons_of_mem _ hx)
      have h2a : x ∉ pre2 := fun hx => h2 (List.mem_cons_of_mem _ hx)
      have := ih pre2 post post2 h1a h2a h.2
      exact ⟨by rw [h.1, this.1], this.2⟩

namespace CPhysicsMotionController

variable {S V : Type}

theorem AttachObject_none (IsStatic : Nat → Bool) (c : CPhysicsMotionController S V)
    (check : Bool) : c.AttachObject IsStatic none check = c := rfl

theorem AttachObject_static (IsStatic : Nat → Bool) (c : CPhysicsMotionController S V)
    (p : Nat) (check : Bool) (h : IsStatic p = true) :
    c.AttachObject IsStatic (some p) check = c := by
  simp [AttachObject, h]

theorem AttachObject_present (IsStatic : Nat → Bool) (c : CPhysicsMotionController S V)
    (pObject : Option Nat) (h : pObject ∈ c.m_objectList) :
    c.AttachObject IsStatic pObject true = c := by
  cases pObject with
  | none => rfl
  | some p =>
    have hf := (CUtlVector.Find_ne_neg_one_iff c.m_objectList (some p)).mpr h
    simp [AttachObject, hf]

theorem AttachObject_appends (IsStatic : Nat → Bool) (c : CPhysicsMotionController S V)
    (p : Nat) (check : Bool) (hs : IsStatic p = false)
    (h : check = false ∨ some p ∉ c.m_objectList) :
    c.AttachObject IsStatic (some p) check
      = { c with m_objectList := c.m_objectList ++ [some p] } := by
  rcases h with h | h
  · simp [AttachObject, hs, h, CUtlVector.AddToTail]
  · have hf : CUtlVector.Find c.m_objectList (some p) = -1 := by
      by_contra hne
      exact h ((CUtlVector.Find_ne_neg_one_iff _ _).mp hne)
    simp [AttachObject, hs, hf, CUtlVector.AddToTail]

theorem DetachObject_absent (c : CPhysicsMotionController S V) (pObject : Option Nat)
    (h : pObject ∉ c.m_objectList) : c.DetachObject pObject = c := by
  rcases CUtlVector.Find_cases c.m_objectList pObject with ⟨_, hval⟩ | ⟨pre, post, hl, _, _⟩
  · simp [DetachObject, hval, CUtlVector.IsValidIndex]
  · exact absurd (by rw [hl]; simp) h

theorem DetachObject_split (c : CPhysicsMotionController S V) (pObject : Option Nat)
    (pre post : List (Option Nat)) (hl : c.m_objectList = pre ++ pObject :: post)
    (hpre : pObject ∉ pre) :
    c.DetachObject pObject = { c with m_objectList := pre ++ post } := by
  rcases CUtlVector.Find_cases c.m_objectList pObject with
    ⟨hnot, _⟩ | ⟨pre2, post2, hl2, hpre2, hval⟩
  · exact absurd (by rw [hl]; simp) hnot
  · have hlen : pre2.length < c.m_objectList.length := by rw [hl2]; simp
    have hvalid : CUtlVector.IsValidIndex c.m_objectList (pre2.length : Int) = true := by
      simp [CUtlVector.IsValidIndex, hlen]
    have hrem : CUtlVector.Remove c.m_objectList pre2.length = pre2 ++ post2 := by
      rw [hl2]; exact CUtlVector.Remove_first pre2 post2 pObject
    have hsame := first_split_unique pObject pre2 pre post2 post hpre2 hpre (hl2.symm.trans hl)
    rw [hsame.1, hsame.2] at hrem
    rw [hsame.1] at hval hvalid
    simp [DetachObject, hval, hvalid, hrem]

end CPhysicsMotionController

/-! ## Tick and the object list -/

/-- C13: `AttachObject` leaves the controller as it is when the object is null, when it is
static, and when `checkIfAlreadyAttached` is true and the object is already in the list;
in every other case the new list is the old one with the object appended at the end. So
attaching one non-static object twice to an empty list gives a count of 1 with
`checkIfAlreadyAttached = true` and of 2 with `checkIfAlreadyAttached = false`. -/
theorem AttachObject_rejects_or_appends {S V : Type} (IsStatic : Nat → Bool)
    (c : CPhysicsMotionController S V) (p : Nat) (checkIfAlreadyAttached : Bool) :
    c.AttachObject IsStatic none checkIfAlreadyAttached = c
    ∧ (IsStatic p = true → c.AttachObject IsStatic (some p) checkIfAlreadyAttached = c)
    ∧ (some p ∈ c.m_objectList → c.AttachObject IsStatic (some p) true = c)
    ∧ (IsStatic p = false → (checkIfAlreadyAttached = false ∨ some p ∉ c.m_objectList) →
        c.AttachObject IsStatic (some p) checkIfAlreadyAttached
          = { c with m_objectList := c.m_objectList ++ [some p] })
    ∧ (IsStatic p = false → c.m_objectList = [] →
        ((c.AttachObject IsStatic (some p) true).AttachObject IsStatic (some p)
            true).CountObjects = 1
        ∧ ((c.AttachObject IsStatic (some p) false).AttachObject IsStatic (some p)
            false).CountObjects = 2) := by
  refine ⟨rfl, CPhysicsMotionController.AttachObject_static IsStatic c p _,
    CPhysicsMotionController.AttachObject_present IsStatic c (some p),
    CPhysicsMotionController.AttachObject_appends IsStatic c p _, fun hs hnil => ?_⟩
  have h1 : c.AttachObject IsStatic (some p) true
      = { c with m_objectList := [some p] } := by
    rw [CPhysicsMotionController.AttachObject_appends IsStatic c p true hs
      (Or.inr (by simp [hnil])), hnil]
    rfl
  have h2 : c.AttachObject IsStatic (some p) false
      = { c with m_objectList := [some p] } := by
    rw [CPhysicsMotionController.AttachObject_appends IsStatic c p false hs (Or.inl rfl), hnil]
    rfl
  constructor
  · rw [h1, CPhysicsMotionController.AttachObject_present IsStatic _ (some p) (by simp)]
    rfl
  · rw [h2, CPhysicsMotionController.AttachObject_appends IsStatic _ p false hs (Or.inl rfl)]
    rfl

/-- Witness of C13: object 0 is static and rejected, object 3 is attached twice to an
empty list with and without the check. -/
theorem AttachObject_rejects_or_appends_witness :
    ((controllerOf none [some 5] : CPhysicsMotionController ℤ (btVector3 ℤ)).AttachObject
        onlyZeroStatic (some 0) false).m_objectList = [some 5]
    ∧ (((controllerOf none [] : CPhysicsMotionController ℤ (btVector3 ℤ)).AttachObject
        onlyZeroStatic (some 3) true).AttachObject onlyZeroStatic (some 3) true).CountObjects = 1
    ∧ (((controllerOf none [] : CPhysicsMotionController ℤ (btVector3 ℤ)).AttachObject
        onlyZeroStatic (some 3) false).AttachObject onlyZeroStatic (some 3) false).CountObjects
        = 2 :=
  ⟨congrArg CPhysicsMotionController.m_objectList
      ((AttachObject_rejects_or_appends onlyZeroStatic
        (controllerOf none [some 5] : CPhysicsMotionController ℤ (btVector3 ℤ)) 0 false).2.1
        (by decide)),
    ((AttachObject_rejects_or_appends onlyZeroStatic
        (controllerOf none [] : CPhysicsMotionController ℤ (btVector3 ℤ)) 3 true).2.2.2.2
        (by decide) rfl).1,
    ((AttachObject_rejects_or_appends onlyZeroStatic
        (controllerOf none [] : CPhysicsMotionController ℤ (btVector3 ℤ)) 3 true).2.2.2.2
        (by decide) rfl).2⟩

/-- C14: when the object is in the list, `DetachObject` removes its first occurrence and
nothing else: the list splits as `pre ++ object :: post` with the object not in `pre`, the
new list is `pre ++ post` (later duplicates stay, the order of the others is kept) and the
count drops by one; when the object is not in the list the controller is unchanged. -/
theorem DetachObject_removes_first_occurrence {S V : Type}
    (c : CPhysicsMotionController S V) (pObject : Option Nat) :
    (pObject ∈ c.m_objectList →
      ∃ pre post, c.m_objectList = pre ++ pObject :: post ∧ pObject ∉ pre
        ∧ c.DetachObject pObject = { c with m_objectList := pre ++ post }
        ∧ (c.DetachObject pObject).CountObjects + 1 = c.CountObjects)
    ∧ (∀ pre post, c.m_objectList = pre ++ pObject :: post → pObject ∉ pre →
        (c.DetachObject pObject).m_objectList = pre ++ post)
    ∧ (pObject ∉ c.m_objectList → c.DetachObject pObject = c) := by
  refine ⟨fun hmem => ?_, fun pre post hl hpre => ?_,
    CPhysicsMotionController.DetachObject_absent c pObject⟩
  · rcases CUtlVector.Find_cases c.m_objectList pObject with
      ⟨hnot, _⟩ | ⟨pre, post, hl, hpre, _⟩
    · exact absurd hmem hnot
    · refine ⟨pre, post, hl, hpre,
        CPhysicsMotionController.DetachObject_split c pObject pre post hl hpre, ?_⟩
      rw [CPhysicsMotionController.DetachObject_split c pObject pre post hl hpre]
      simp only [CPhysicsMotionController.CountObjects, CUtlVector.Count, hl,
        List.length_append, List.length_cons]
      omega
  · rw [CPhysicsMotionController.DetachObject_split c pObject pre post hl hpre]

/-- Witness of C14: object 2 is attached twice; detaching it removes the first occurrence
only, and detaching the absent object 9 changes nothing. -/
theorem DetachObject_removes_first_occurrence_witness :
    ((controllerOf none [some 1, some 2, some 3, some 2]
        : CPhysicsMotionController ℤ (btVector3 ℤ)).DetachObject (some 2)).m_objectList
      = [some 1, some 3, some 2]
    ∧ ((controllerOf none [some 1, some 2, some 3, some 2]
        : CPhysicsMotionController ℤ (btVector3 ℤ)).DetachObject (some 9)).m_objectList
      = [some 1, some 2, some 3, some 2] :=
  ⟨(DetachObject_removes_first_occurrence
      (controllerOf none [some 1, some 2, some 3, some 2]
        : CPhysicsMotionController ℤ (btVector3 ℤ)) (some 2)).2.1
      [some 1] [some 3, some 2] rfl (by decide),
    congrArg CPhysicsMotionController.m_objectList
      ((DetachObject_removes_first_occurrence
        (controllerOf none [some 1, some 2, some 3, some 2]
          : CPhysicsMotionController ℤ (btVector3 ℤ)) (some 9)).2.2 (by decide))⟩

/-! ## Sequences of controller calls -/

theorem runController_append {S V : Type} [Add S] [Mul S] (IsStatic : Nat → Bool)
    (cv : Convert S V) (s : CPhysicsMotionController S V × World S)
    (calls : List (ControllerCall S)) (call : ControllerCall S) :
    runController IsStatic cv s (calls ++ [call])
      = ControllerCall.run IsStatic cv (runController IsStatic cv s calls) call := by
  simp [runController]

/-- Every call either leaves a sublist of the object list or appends one non-static object,
which was not in the list when the call asked for the check. -/
theorem ControllerCall.run_objectList_cases {S V : Type} [Add S] [Mul S]
    (IsStatic : Nat → Bool) (cv : Convert S V) (s : CPhysicsMotionController S V × World S)
    (call : ControllerCall S) :
    List.Sublist (ControllerCall.run IsStatic cv s call).1.m_objectList s.1.m_objectList
    ∨ ∃ p chk, call = .AttachObject (some p) chk ∧ IsStatic p = false
        ∧ (chk = true → some p ∉ s.1.m_objectList)
        ∧ (ControllerCall.run IsStatic cv s call).1.m_objectList
            = s.1.m_objectList ++ [some p] := by
  cases call with
  | AttachObject pObject chk =>
    cases pObject with
    | none => exact Or.inl (List.Sublist.refl _)
    | some p =>
      by_cases hs : IsStatic p = true
      · left
        show List.Sublist (s.1.AttachObject IsStatic (some p) chk).m_objectList _
        rw [CPhysicsMotionController.AttachObject_static IsStatic s.1 p chk hs]
      · have hs2 : IsStatic p = false := by simpa using hs
        by_cases hcase : chk = false ∨ some p ∉ s.1.m_objectList
        · right
          refine ⟨p, chk, rfl, hs2, fun hc => ?_, ?_⟩
          · rcases hcase with h | h
            · rw [hc] at h; exact absurd h (by decide)
            · exact h
          · show (s.1.AttachObject IsStatic (some p) chk).m_objectList = _
            rw [CPhysicsMotionController.AttachObject_appends IsStatic s.1 p chk hs2 hcase]
        · left
          have hc : chk = true := by
            cases chk with
            | true => rfl
            | false => exact absurd (Or.inl rfl) hcase
          have hmem : some p ∈ s.1.m_objectList := by
            by_contra hn
            exact hcase (Or.inr hn)
          show List.Sublist (s.1.AttachObject IsStatic (some p) chk).m_objectList _
          rw [hc, CPhysicsMotionController.AttachObject_present IsStatic s.1 (some p) hmem]
  | DetachObject pObject =>
    left
    show List.Sublist (s.1.DetachObject pObject).m_objectList _
    by_cases hmem : pObject ∈ s.1.m_objectList
    · rcases CUtlVector.Find_cases s.1.m_objectList pObject with
        ⟨hnot, _⟩ | ⟨pre, post, hl, hpre, _⟩
      · exact absurd hmem hnot
      · rw [CPhysicsMotionController.DetachObject_split s.1 pObject pre post hl hpre, hl]
        exact (List.Sublist.refl pre).append (List.sublist_cons_self _ _)
    · rw [CPhysicsMotionController.DetachObject_absent s.1 pObject hmem]
  | ClearObjects =>
    left
    exact List.nil_sublist _
  | Tick deltaTime =>
    left
    show List.Sublist (s.1.Tick cv s.2 deltaTime).1.m_objectList _
    cases hh : s.1.m_handler with
    | none => rw [CPhysicsMotionController.Tick_of_no_handler cv s.1 s.2 deltaTime hh]
    | some handler =>
      rw [CPhysicsMotionController.Tick_of_handler cv s.1 s.2 deltaTime handler hh]
      exact List.filter_sublist _

theorem runController_keeps_non_static {S V : Type} [Add S] [Mul S] (IsStatic : Nat → Bool)
    (cv : Convert S V) (calls : List (ControllerCall S)) :
    ∀ s : CPhysicsMotionController S V × World S,
      (∀ e ∈ s.1.m_objectList, ∃ p, e = some p ∧ IsStatic p = false) →
      ∀ e ∈ (runController IsStatic cv s calls).1.m_objectList,
        ∃ p, e = some p ∧ IsStatic p = false := by
  induction calls with
  | nil => intro s h; exact h
  | cons call calls ih =>
    intro s h
    show ∀ e ∈ (runController IsStatic cv (ControllerCall.run IsStatic cv s call)
      calls).1.m_objectList, _
    apply ih
    intro e he
    rcases ControllerCall.run_objectList_cases IsStatic cv s call with
      hsub | ⟨p, chk, _, hs, _, hl⟩
    · exact h e (hsub.subset he)
    · rw [hl] at he
      rcases List.mem_append.mp he with he | he
      · exact h e he
      · exact ⟨p, by simpa using he, hs⟩

theorem pair_sublist_append_singleton {α : Type} (a b x : α) (l : List α)
    (h : List.Sublist [a, b] (l ++ [x])) : List.Sublist [a, b] l ∨ (b = x ∧ a ∈ l) := by
  rcases List.sublist_append_iff.mp h with ⟨l1, l2, heq, h1, h2⟩
  cases l2 with
  | nil =>
    left
    rw [heq]
    simpa using h1
  | cons y l2 =>
    have hy : y = x ∧ l2 = [] := by
      have hlen := h2.length_le
      have hmem : y ∈ [x] := h2.subset (by simp)
      simp only [List.length_cons, List.length_nil] at hlen
      exact ⟨by simpa using hmem, List.length_eq_zero.mp (by omega)⟩
    right
    rw [hy.1, hy.2] at heq
    cases l1 with
    | nil => simp at heq
    | cons c l1 =>
      cases l1 with
      | nil =>
        simp only [List.cons_append, List.nil_append, List.cons.injEq, and_true] at heq
        exact ⟨heq.2, by rw [heq.1]; simpa using h1⟩
      | cons d l1 =>
        have := congrArg List.length heq
        simp at this

/-- The object list after each prefix of a run that starts from the empty list and attaches
only with the check: it has no duplicates, and whenever `a` stands before `b` in it there
is a moment at which `b` was not in the list while `a` was and has stayed since. -/
theorem runController_checked_order {S V : Type} [Add S] [Mul S] (IsStatic : Nat → Bool)
    (cv : Convert S V) (s0 : CPhysicsMotionController S V × World S)
    (h0 : s0.1.m_objectList = []) (calls : List (ControllerCall S)) :
    (∀ pObject chk, ControllerCall.AttachObject pObject chk ∈ calls → chk = true) →
    (runController IsStatic cv s0 calls).1.m_objectList.Nodup
    ∧ ∀ a b, List.Sublist [a, b] (runController IsStatic cv s0 calls).1.m_objectList →
        ∃ k, k ≤ calls.length
          ∧ b ∉ (runController IsStatic cv s0 (calls.take k)).1.m_objectList
          ∧ ∀ m, k ≤ m → m ≤ calls.length →
              a ∈ (runController IsStatic cv s0 (calls.take m)).1.m_objectList := by
  induction calls using List.reverseRecOn with
  | nil =>
    intro _
    have hnil : (runController IsStatic cv s0 []).1.m_objectList = [] := h0
    rw [hnil]
    refine ⟨List.nodup_nil, fun a b hab => ?_⟩
    exact absurd hab.length_le (by simp)
  | append_singleton calls call ih =>
    intro hchk
    have hchk0 : ∀ pObject chk, ControllerCall.AttachObject pObject chk ∈ calls → chk = true :=
      fun pObject chk hmem => hchk pObject chk (List.mem_append_left _ hmem)
    obtain ⟨hnd, hord⟩ := ih hchk0
    have htake : ∀ m, m ≤ calls.length → (calls ++ [call]).take m = calls.take m :=
      fun m hm => List.take_append_of_le_length hm
    have hfull : (calls ++ [call]).take (calls.length + 1) = calls ++ [call] :=
      List.take_of_length_le (by simp)
    have hlen : (calls ++ [call]).length = calls.length + 1 := by simp
    -- an older pair keeps its moment, whenever `a` is still in the new list
    have hold : ∀ a b, List.Sublist [a, b] (runController IsStatic cv s0 calls).1.m_objectList →
        a ∈ (runController IsStatic cv s0 (calls ++ [call])).1.m_objectList →
        ∃ k, k ≤ (calls ++ [call]).length
          ∧ b ∉ (runController IsStatic cv s0 ((calls ++ [call]).take k)).1.m_objectList
          ∧ ∀ m, k ≤ m → m ≤ (calls ++ [call]).length →
              a ∈ (runController IsStatic cv s0 ((calls ++ [call]).take m)).1.m_objectList := by
      intro a b hab hnew
      obtain ⟨k, hk, hb, ha⟩ := hord a b hab
      refine ⟨k, by omega, by rw [htake k hk]; exact hb, fun m hkm hm => ?_⟩
      by_cases hmle : m ≤ calls.length
      · rw [htake m hmle]; exact ha m hkm hmle
      · have hm1 : m = calls.length + 1 := by omega
        rw [hm1, hfull]; exact hnew
    rw [runController_append] at *
    rcases ControllerCall.run_objectList_cases IsStatic cv
        (runController IsStatic cv s0 calls) call with hsub | ⟨p, chk, hcall, _, hfresh, hl⟩
    · refine ⟨hsub.nodup hnd, fun a b hab => ?_⟩
      exact hold a b (hab.trans hsub) (hab.subset (by simp))
    · have hc : chk = true := hchk (some p) chk (by rw [hcall]; simp)
      have hnot : some p ∉ (runController IsStatic cv s0 calls).1.m_objectList := hfresh hc
      rw [hl]
      refine ⟨?_, fun a b hab => ?_⟩
      · exact List.nodup_append.mpr ⟨hnd, List.nodup_singleton _, by
          intro e he1 he2
          rw [List.mem_singleton.mp he2] at he1
          exact hnot he1⟩
      · have hnew : ∀ e, e ∈ (runController IsStatic cv s0 calls).1.m_objectList →
            e ∈ (ControllerCall.run IsStatic cv (runController IsStatic cv s0 calls)
              call).1.m_objectList := by
          intro e he; rw [hl]; exact List.mem_append_left _ he
        rcases pair_sublist_append_singleton a b (some p) _ hab with hab0 | ⟨hb, ha⟩
        · exact hold a b hab0 (hnew a (hab0.subset (by simp)))
        · refine ⟨calls.length, by omega, ?_, fun m hkm hm => ?_⟩
          · rw [htake _ (Nat.le_refl _), List.take_length, hb]; exact hnot
          · by_cases hmle : m ≤ calls.length
            · have hm0 : m = calls.length := by omega
              rw [hm0, htake _ (Nat.le_refl _), List.take_length]; exact ha
            · have hm1 : m = calls.length + 1 := by omega
              rw [hm1, hfull, runController_append]; exact hnew a ha

theorem pair_sublist_of_lt {α : Type} :
    ∀ (l : List α) (i j : Nat) (hij : i < j) (hj : j < l.length),
      List.Sublist [l[i], l[j]] l := by
  intro l
  induction l with
  | nil => intro i j _ hj; simp at hj
  | cons x xs ih =>
    intro i j hij hj
    cases j with
    | zero => omega
    | succ j =>
      have hj2 : j < xs.length := by simpa using hj
      cases i with
      | zero =>
        simp only [List.getElem_cons_zero, List.getElem_cons_succ]
        exact List.Sublist.cons₂ x (List.singleton_sublist.mpr (List.getElem_mem hj2))
      | succ i =>
        simp only [List.getElem_cons_succ]
        exact List.Sublist.cons x (ih i j (by omega) hj2)

/-- C15: in an object list reached from the empty list by any sequence of `AttachObject`,
`DetachObject`, `ClearObjects` and `Tick` calls (under one static classification of the
objects) no entry is a static object; nor is any entry null. -/
theorem reachable_objectList_has_no_static {S V : Type} [Add S] [Mul S]
    (IsStatic : Nat → Bool) (cv : Convert S V) (s0 : CPhysicsMotionController S V × World S)
    (calls : List (ControllerCall S)) (h0 : s0.1.m_objectList = []) :
    (∀ p, some p ∈ (runController IsStatic cv s0 calls).1.m_objectList → IsStatic p = false)
    ∧ none ∉ (runController IsStatic cv s0 calls).1.m_objectList := by
  have hinv := runController_keeps_non_static IsStatic cv calls s0 (by simp [h0])
  constructor
  · intro p hp
    obtain ⟨q, hq, hs⟩ := hinv (some p) hp
    rw [Option.some.inj hq]; exact hs
  · intro hn
    obtain ⟨q, hq, _⟩ := hinv none hn
    exact Option.noConfusion hq

/-- Witness of C15: the static object 0 and the null object are offered, object 3 is
attached twice, and `Tick`, `DetachObject` and `ClearObjects` are called in between. -/
theorem reachable_objectList_has_no_static_witness :
    (controllerOf (some mixedHandler) [] : CPhysicsMotionController ℤ (btVector3 ℤ)).m_objectList
        = []
    ∧ ∀ p, some p ∈ (runController onlyZeroStatic solverUnits
          ((controllerOf (some mixedHandler) [] : CPhysicsMotionController ℤ (btVector3 ℤ)),
            (restWorld : World ℤ))
          [.AttachObject (some 0) false, .AttachObject (some 3) false, .AttachObject none true,
            .Tick 1, .AttachObject (some 3) false, .DetachObject (some 3), .ClearObjects,
            .AttachObject (some 0) true, .AttachObject (some 4) true]).1.m_objectList →
        onlyZeroStatic p = false :=
  ⟨rfl, (reachable_objectList_has_no_static onlyZeroStatic solverUnits
      ((controllerOf (some mixedHandler) [] : CPhysicsMotionController ℤ (btVector3 ℤ)),
        (restWorld : World ℤ)) _ rfl).1⟩

/-- C16: in an object list reached from the empty list by `AttachObject` calls that all pass
`checkIfAlreadyAttached = true`, together with any `DetachObject`, `ClearObjects` and
`Tick` calls, no object appears twice, and the entries stand in the order in which they
were attached: whenever `a` stands before `b` (as a pair of entries, or as the entries at
positions `i < j`), there is a moment of the run at which `b` was not in the list while
`a` was, and `a` has stayed in the list from that moment on. -/
theorem checked_attach_keeps_objects_unique_and_ordered {S V : Type} [Add S] [Mul S]
    (IsStatic : Nat → Bool) (cv : Convert S V) (s0 : CPhysicsMotionController S V × World S)
    (calls : List (ControllerCall S)) (h0 : s0.1.m_objectList = [])
    (hchk : ∀ pObject chk, ControllerCall.AttachObject pObject chk ∈ calls → chk = true) :
    (runController IsStatic cv s0 calls).1.m_objectList.Nodup
    ∧ (∀ a b, List.Sublist [a, b] (runController IsStatic cv s0 calls).1.m_objectList →
        ∃ k, k ≤ calls.length
          ∧ b ∉ (runController IsStatic cv s0 (calls.take k)).1.m_objectList
          ∧ ∀ m, k ≤ m → m ≤ calls.length →
              a ∈ (runController IsStatic cv s0 (calls.take m)).1.m_objectList)
    ∧ (∀ (i j : Nat) (hij : i < j)
        (hj : j < (runController IsStatic cv s0 calls).1.m_objectList.length),
        ∃ k, k ≤ calls.length
          ∧ (runController IsStatic cv s0 calls).1.m_objectList[j]
              ∉ (runController IsStatic cv s0 (calls.take k)).1.m_objectList
          ∧ ∀ m, k ≤ m → m ≤ calls.length →
              (runController IsStatic cv s0 calls).1.m_objectList[i]
                ∈ (runController IsStatic cv s0 (calls.take m)).1.m_objectList) := by
  obtain ⟨hnd, hord⟩ := runController_checked_order IsStatic cv s0 h0 calls hchk
  exact ⟨hnd, hord, fun i j hij hj => hord _ _ (pair_sublist_of_lt _ i j hij hj)⟩

/-- Witness of C16: objects 1 and 2 are attached with the check, object 1 is attached again,
detached and attached once more, with a `Tick` in between. -/
theorem checked_attach_keeps_objects_unique_and_ordered_witness :
    (controllerOf (some mixedHandler) [] : CPhysicsMotionController ℤ (btVector3 ℤ)).m_objectList
        = []
    ∧ (runController onlyZeroStatic solverUnits
          ((controllerOf (some mixedHandler) [] : CPhysicsMotionController ℤ (btVector3 ℤ)),
            (restWorld : World ℤ))
          [.AttachObject (some 1) true, .AttachObject (some 2) true, .AttachObject (some 1) true,
            .Tick 1, .DetachObject (some 1), .AttachObject (some 1) true]).1.m_objectList.Nodup :=
  ⟨rfl, (checked_attach_keeps_objects_unique_and_ordered onlyZeroStatic solverUnits
      ((controllerOf (some mixedHandler) [] : CPhysicsMotionController ℤ (btVector3 ℤ)),
        (restWorld : World ℤ))
      [.AttachObject (some 1) true, .AttachObject (some 2) true, .AttachObject (some 1) true,
        .Tick 1, .DetachObject (some 1), .AttachObject (some 1) true] rfl
      (by simp)).1⟩

/-! ## What Tick does to a rigid body -/

namespace CPhysicsMotionController

variable {S V : Type}

/-- With a handler present, the rigid body of object `q` after `Tick` is its rigid body
before, put through the loop body once for every entry of `q` in the object list. -/
theorem Tick_bodies [Add S] [Mul S] (cv : Convert S V) (c : CPhysicsMotionController S V)
    (w : World S) (deltaTime : S) (handler : IMotionEvent S V)
    (hh : c.m_handler = some handler) (q : Nat) :
    (c.Tick cv w deltaTime).2.bodies q
      = (objectStep cv handler deltaTime q)^[c.m_objectList.count (some q)] (w.bodies q) := by
  rw [Tick_of_handler cv c w deltaTime handler hh]
  show (simulateAll cv handler deltaTime c.m_objectList.reduceOption w).bodies q = _
  rw [simulateAll_bodies, count_reduceOption]

theorem objectStep_of_answer [Add S] [Mul S] (cv : Convert S V) (handler : IMotionEvent S V)
    (deltaTime : S) (p : Nat) (ret : simresult_e) (linear angular : V)
    (h : handler.Simulate p deltaTime = (ret, linear, angular)) :
    objectStep cv handler deltaTime p
      = dispatch ret (cv.ConvertForceImpulseToBull linear)
          (cv.ConvertAngularImpulseToBull angular) deltaTime := by
  funext body
  simp [objectStep, h]

theorem iterate_velocity_step [Add S] (f : btTransform S → btVector3 S) (B : btVector3 S)
    (n : Nat) :
    ∀ body : btRigidBody S,
      (fun b : btRigidBody S =>
          { b with
            m_linearVelocity := b.m_linearVelocity + f b.graphicTransform
            m_angularVelocity := b.m_angularVelocity + B })^[n] body
        = { body with
            m_linearVelocity := (fun v => v + f body.graphicTransform)^[n] body.m_linearVelocity
            m_angularVelocity := (fun v => v + B)^[n] body.m_angularVelocity } := by
  induction n with
  | zero => intro body; rfl
  | succ n ih =>
    intro body
    rw [Function.iterate_succ_apply, ih]
    rfl

theorem iterate_force_step (f : btTransform S → btVector3 S) (T : btVector3 S) (n : Nat) :
    ∀ body : btRigidBody S,
      (fun b : btRigidBody S =>
          { b with
            centralForces := b.centralForces ++ [f b.graphicTransform]
            torques := b.torques ++ [T] })^[n] body
        = { body with
            centralForces := body.centralForces ++ List.replicate n (f body.graphicTransform)
            torques := body.torques ++ List.replicate n T } := by
  induction n with
  | zero => intro body; simp
  | succ n ih =>
    intro body
    rw [Function.iterate_succ_apply, ih]
    simp [List.replicate_succ]

theorem count_pos_of_attached (l : List (Option Nat)) (p : Nat) (h : some p ∈ l) :
    0 < l.count (some p) := List.count_pos_iff.mpr h

end CPhysicsMotionController

theorem btMatrix3x3.identity_mulVec {S : Type} [CommRing S] (v : btVector3 S) :
    (btMatrix3x3.identity : btMatrix3x3 S).mulVec v = v := by
  ext <;> simp [btMatrix3x3.mulVec, btMatrix3x3.identity, btVector3.dot]

/-! ## The event kinds -/

/-- C17, as stated, fails for an object that is attached twice: with the answer
`GLOBAL_FORCE`, linear (5,0,0) in solver units and `deltaTime = 1/10`, `Tick` queues the
force (1/2,0,0) twice and the torque twice on the body, not once. -/
theorem doubly_attached_body_is_forced_twice :
    some 1 ∈ (controllerOf (some (constantHandler .SIM_GLOBAL_FORCE ⟨5, 0, 0⟩ ⟨0, 0, 1⟩))
        [some 1, some 1] : CPhysicsMotionController ℚ (btVector3 ℚ)).m_objectList
    ∧ (constantHandler .SIM_GLOBAL_FORCE ⟨5, 0, 0⟩ ⟨0, 0, 1⟩
        : IMotionEvent ℚ (btVector3 ℚ)).Simulate 1 (1 / 10)
        = (.SIM_GLOBAL_FORCE, ⟨5, 0, 0⟩, ⟨0, 0, 1⟩)
    ∧ ((restWorld : World ℚ).bodies 1).centralForces = []
    ∧ (((controllerOf (some (constantHandler .SIM_GLOBAL_FORCE ⟨5, 0, 0⟩ ⟨0, 0, 1⟩))
          [some 1, some 1] : CPhysicsMotionController ℚ (btVector3 ℚ)).Tick solverUnits
          restWorld (1 / 10)).2.bodies 1).centralForces = [⟨1 / 2, 0, 0⟩, ⟨1 / 2, 0, 0⟩]
    ∧ (((controllerOf (some (constantHandler .SIM_GLOBAL_FORCE ⟨5, 0, 0⟩ ⟨0, 0, 1⟩))
          [some 1, some 1] : CPhysicsMotionController ℚ (btVector3 ℚ)).Tick solverUnits
          restWorld (1 / 10)).2.bodies 1).centralForces ≠ [⟨1 / 2, 0, 0⟩]
    ∧ (((controllerOf (some (constantHandler .SIM_GLOBAL_FORCE ⟨5, 0, 0⟩ ⟨0, 0, 1⟩))
          [some 1, some 1] : CPhysicsMotionController ℚ (btVector3 ℚ)).Tick solverUnits
          restWorld (1 / 10)).2.bodies 1).torques.length = 2 := by
  have hbody := CPhysicsMotionController.Tick_bodies solverUnits
    (controllerOf (some (constantHandler .SIM_GLOBAL_FORCE ⟨5, 0, 0⟩ ⟨0, 0, 1⟩))
      [some 1, some 1] : CPhysicsMotionController ℚ (btVector3 ℚ)) restWorld (1 / 10)
    (constantHandler .SIM_GLOBAL_FORCE ⟨5, 0, 0⟩ ⟨0, 0, 1⟩) rfl 1
  have hcount : (controllerOf (some (constantHandler .SIM_GLOBAL_FORCE ⟨5, 0, 0⟩ ⟨0, 0, 1⟩))
      [some 1, some 1] : CPhysicsMotionController ℚ (btVector3 ℚ)).m_objectList.count (some 1)
      = 2 := by decide
  have hF : (⟨5, 0, 0⟩ : btVector3 ℚ).scale (1 / 10) = ⟨1 / 2, 0, 0⟩ := by
    ext <;> norm_num [btVector3.scale]
  rw [hcount, CPhysicsMotionController.objectStep_of_answer solverUnits _ (1 / 10) 1
    .SIM_GLOBAL_FORCE ⟨5, 0, 0⟩ ⟨0, 0, 1⟩ rfl] at hbody
  have hforces : (((controllerOf (some (constantHandler .SIM_GLOBAL_FORCE ⟨5, 0, 0⟩ ⟨0, 0, 1⟩))
      [some 1, some 1] : CPhysicsMotionController ℚ (btVector3 ℚ)).Tick solverUnits
      restWorld (1 / 10)).2.bodies 1).centralForces = [⟨1 / 2, 0, 0⟩, ⟨1 / 2, 0, 0⟩] := by
    rw [hbody, ← hF]
    rfl
  have htorques : (((controllerOf (some (constantHandler .SIM_GLOBAL_FORCE ⟨5, 0, 0⟩ ⟨0, 0, 1⟩))
      [some 1, some 1] : CPhysicsMotionController ℚ (btVector3 ℚ)).Tick solverUnits
      restWorld (1 / 10)).2.bodies 1).torques.length = 2 := by
    rw [hbody]
    rfl
  refine ⟨by simp [controllerOf], rfl, rfl, hforces, ?_, htorques⟩
  rw [hforces]
  simp

/-- C17, amended: for an attached non-null object whose handler answer is `GLOBAL_FORCE` with the
vectors `(linear, angular)`, `Tick` hands the central force `convert(linear) * deltaTime`
and the torque `convert(angular) * deltaTime` to the force and torque accumulation of
its rigid body, once for every entry of the object in the list, with no rotation and
without writing either velocity; with `convert(linear) = (5,0,0)` and `deltaTime = 1/10`
the queued force is `(1/2,0,0)`. `LOCAL_FORCE` does the
same with the linear vector first multiplied by the orientation basis of the body; the
angular vector is not rotated. -/
theorem force_events_queue_force_and_torque {S V : Type} [Field S] [CharZero S]
    (cv : Convert S V) (c : CPhysicsMotionController S V) (w : World S) (deltaTime : S)
    (handler : IMotionEvent S V) (p : Nat) (linear angular : V)
    (hh : c.m_handler = some handler) (hp : some p ∈ c.m_objectList) :
    (handler.Simulate p deltaTime = (.SIM_GLOBAL_FORCE, linear, angular) →
      (c.Tick cv w deltaTime).2.bodies p
          = { w.bodies p with
              centralForces := (w.bodies p).centralForces ++
                List.replicate (c.m_objectList.count (some p))
                  ((cv.ConvertForceImpulseToBull linear).scale deltaTime)
              torques := (w.bodies p).torques ++
                List.replicate (c.m_objectList.count (some p))
                  ((cv.ConvertAngularImpulseToBull angular).scale deltaTime) }
      ∧ ((c.Tick cv w deltaTime).2.bodies p).m_linearVelocity = (w.bodies p).m_linearVelocity
      ∧ ((c.Tick cv w deltaTime).2.bodies p).m_angularVelocity = (w.bodies p).m_angularVelocity
      ∧ (c.m_objectList.count (some p) = 1 →
          ((c.Tick cv w deltaTime).2.bodies p).centralForces
              = (w.bodies p).centralForces
                  ++ [(cv.ConvertForceImpulseToBull linear).scale deltaTime]
          ∧ ((c.Tick cv w deltaTime).2.bodies p).torques
              = (w.bodies p).torques
                  ++ [(cv.ConvertAngularImpulseToBull angular).scale deltaTime])
      ∧ (cv.ConvertForceImpulseToBull linear = ⟨5, 0, 0⟩ → deltaTime = 1 / 10 →
          ((c.Tick cv w deltaTime).2.bodies p).centralForces
              = (w.bodies p).centralForces
                  ++ List.replicate (c.m_objectList.count (some p)) ⟨1 / 2, 0, 0⟩
          ∧ (c.m_objectList.count (some p) = 1 →
              ((c.Tick cv w deltaTime).2.bodies p).centralForces
                = (w.bodies p).centralForces ++ [⟨1 / 2, 0, 0⟩])))
    ∧ (handler.Simulate p deltaTime = (.SIM_LOCAL_FORCE, linear, angular) →
      (c.Tick cv w deltaTime).2.bodies p
          = { w.bodies p with
              centralForces := (w.bodies p).centralForces ++
                List.replicate (c.m_objectList.count (some p))
                  (((w.bodies p).getGraphicTransform.getBasis.mulVec
                      (cv.ConvertForceImpulseToBull linear)).scale deltaTime)
              torques := (w.bodies p).torques ++
                List.replicate (c.m_objectList.count (some p))
                  ((cv.ConvertAngularImpulseToBull angular).scale deltaTime) }
      ∧ ((c.Tick cv w deltaTime).2.bodies p).m_linearVelocity = (w.bodies p).m_linearVelocity
      ∧ ((c.Tick cv w deltaTime).2.bodies p).m_angularVelocity = (w.bodies p).m_angularVelocity
      ∧ (c.m_objectList.count (some p) = 1 →
          ((c.Tick cv w deltaTime).2.bodies p).centralForces
              = (w.bodies p).centralForces
                  ++ [((w.bodies p).getGraphicTransform.getBasis.mulVec
                        (cv.ConvertForceImpulseToBull linear)).scale deltaTime]
          ∧ ((c.Tick cv w deltaTime).2.bodies p).torques
              = (w.bodies p).torques
                  ++ [(cv.ConvertAngularImpulseToBull angular).scale deltaTime]))
    ∧ 0 < c.m_objectList.count (some p) := by
  refine ⟨fun hsim => ?_, fun hsim => ?_,
    CPhysicsMotionController.count_pos_of_attached _ p hp⟩
  · have hbody : (c.Tick cv w deltaTime).2.bodies p
          = { w.bodies p with
              centralForces := (w.bodies p).centralForces ++
                List.replicate (c.m_objectList.count (some p))
                  ((cv.ConvertForceImpulseToBull linear).scale deltaTime)
              torques := (w.bodies p).torques ++
                List.replicate (c.m_objectList.count (some p))
                  ((cv.ConvertAngularImpulseToBull angular).scale deltaTime) } := by
      rw [CPhysicsMotionController.Tick_bodies cv c w deltaTime handler hh p,
        CPhysicsMotionController.objectStep_of_answer cv handler deltaTime p _ _ _ hsim]
      exact CPhysicsMotionController.iterate_force_step
        (fun _ => (cv.ConvertForceImpulseToBull linear).scale deltaTime) _ _ (w.bodies p)
    refine ⟨hbody, by rw [hbody], by rw [hbody], fun h1 => ?_, fun h5 hdt => ?_⟩
    · rw [hbody, h1]
      exact ⟨rfl, rfl⟩
    · have hF : (cv.ConvertForceImpulseToBull linear).scale deltaTime = ⟨1 / 2, 0, 0⟩ := by
        rw [h5, hdt]
        ext <;> norm_num [btVector3.scale]
      rw [hbody, hF]
      exact ⟨rfl, fun h1 => by rw [h1]; rfl⟩
  · have hbody : (c.Tick cv w deltaTime).2.bodies p
          = { w.bodies p with
              centralForces := (w.bodies p).centralForces ++
                List.replicate (c.m_objectList.count (some p))
                  (((w.bodies p).getGraphicTransform.getBasis.mulVec
                      (cv.ConvertForceImpulseToBull linear)).scale deltaTime)
              torques := (w.bodies p).torques ++
                List.replicate (c.m_objectList.count (some p))
                  ((cv.ConvertAngularImpulseToBull angular).scale deltaTime) } := by
      rw [CPhysicsMotionController.Tick_bodies cv c w deltaTime handler hh p,
        CPhysicsMotionController.objectStep_of_answer cv handler deltaTime p _ _ _ hsim]
      exact CPhysicsMotionController.iterate_force_step
        (fun t => (t.getBasis.mulVec (cv.ConvertForceImpulseToBull linear)).scale deltaTime)
        _ _ (w.bodies p)
    refine ⟨hbody, by rw [hbody], by rw [hbody], fun h1 => ?_⟩
    rw [hbody, h1]
    exact ⟨rfl, rfl⟩

/-- Witness of the amended C17: one object attached once, answers in solver units, `deltaTime = 1/10`;
the global force (5,0,0) is queued as (1/2,0,0), and on the turned body the local force
(5,0,0) is queued after the rotation by its basis. -/
theorem force_events_queue_force_and_torque_witness :
    (((controllerOf (some (constantHandler .SIM_GLOBAL_FORCE ⟨5, 0, 0⟩ ⟨0, 0, 1⟩)) [some 1]
          : CPhysicsMotionController ℚ (btVector3 ℚ)).Tick solverUnits restWorld
          (1 / 10)).2.bodies 1).centralForces = [⟨1 / 2, 0, 0⟩]
    ∧ (((controllerOf (some (constantHandler .SIM_LOCAL_FORCE ⟨5, 0, 0⟩ ⟨0, 0, 1⟩)) [some 1]
          : CPhysicsMotionController ℚ (btVector3 ℚ)).Tick solverUnits turnedWorld
          (1 / 10)).2.bodies 1).centralForces
        = [⟨1, 1, 1⟩,
            ((turnedRigidBody : btRigidBody ℚ).graphicTransform.m_basis.mulVec
              ⟨5, 0, 0⟩).scale (1 / 10)]
    ∧ ((turnedRigidBody : btRigidBody ℚ).graphicTransform.m_basis.mulVec
              ⟨5, 0, 0⟩).scale (1 / 10) = ⟨0, 1 / 2, 0⟩ :=
  ⟨((((force_events_queue_force_and_torque solverUnits
        (controllerOf (some (constantHandler .SIM_GLOBAL_FORCE ⟨5, 0, 0⟩ ⟨0, 0, 1⟩)) [some 1]
          : CPhysicsMotionController ℚ (btVector3 ℚ)) restWorld (1 / 10) _ 1
        ⟨5, 0, 0⟩ ⟨0, 0, 1⟩ rfl (by simp [controllerOf])).1 rfl).2.2.2.2 rfl rfl).2 rfl),
    ((((force_events_queue_force_and_torque solverUnits
        (controllerOf (some (constantHandler .SIM_LOCAL_FORCE ⟨5, 0, 0⟩ ⟨0, 0, 1⟩)) [some 1]
          : CPhysicsMotionController ℚ (btVector3 ℚ)) turnedWorld (1 / 10) _ 1
        ⟨5, 0, 0⟩ ⟨0, 0, 1⟩ rfl (by simp [controllerOf])).2.1 rfl).2.2.2 rfl).1),
    by norm_num [turnedRigidBody, btMatrix3x3.mulVec, btVector3.dot, btVector3.scale]⟩

/-- C18, as stated, fails for an object that is attached twice: with the answer
`GLOBAL_ACCELERATION`, linear (1,0,0) in solver units and `deltaTime = 1`, the linear
velocity of a body at rest is (2,0,0) after `Tick`, not `old + (1,0,0) * 1 = (1,0,0)`. -/
theorem doubly_attached_body_accelerates_twice :
    some 1 ∈ (controllerOf (some (constantHandler .SIM_GLOBAL_ACCELERATION ⟨1, 0, 0⟩ ⟨0, 0, 1⟩))
        [some 1, some 1] : CPhysicsMotionController ℤ (btVector3 ℤ)).m_objectList
    ∧ (constantHandler .SIM_GLOBAL_ACCELERATION ⟨1, 0, 0⟩ ⟨0, 0, 1⟩
        : IMotionEvent ℤ (btVector3 ℤ)).Simulate 1 1
        = (.SIM_GLOBAL_ACCELERATION, ⟨1, 0, 0⟩, ⟨0, 0, 1⟩)
    ∧ (((controllerOf (some (constantHandler .SIM_GLOBAL_ACCELERATION ⟨1, 0, 0⟩ ⟨0, 0, 1⟩))
          [some 1, some 1] : CPhysicsMotionController ℤ (btVector3 ℤ)).Tick solverUnits
          restWorld 1).2.bodies 1).m_linearVelocity = ⟨2, 0, 0⟩
    ∧ ((restWorld : World ℤ).bodies 1).m_linearVelocity
          + ((solverUnits : Convert ℤ (btVector3 ℤ)).ConvertForceImpulseToBull ⟨1, 0, 0⟩).scale 1
        = ⟨1, 0, 0⟩
    ∧ (((controllerOf (some (constantHandler .SIM_GLOBAL_ACCELERATION ⟨1, 0, 0⟩ ⟨0, 0, 1⟩))
          [some 1, some 1] : CPhysicsMotionController ℤ (btVector3 ℤ)).Tick solverUnits
          restWorld 1).2.bodies 1).m_linearVelocity
        ≠ ((restWorld : World ℤ).bodies 1).m_linearVelocity
          + ((solverUnits : Convert ℤ (btVector3 ℤ)).ConvertForceImpulseToBull
              ⟨1, 0, 0⟩).scale 1 := by
  rw [CPhysicsMotionController.Tick_of_handler solverUnits _ restWorld 1
    (constantHandler .SIM_GLOBAL_ACCELERATION ⟨1, 0, 0⟩ ⟨0, 0, 1⟩) rfl]
  decide

/-- C18, amended: for an attached non-null object whose handler answer is
`GLOBAL_ACCELERATION` with the vectors `(linear, angular)`, every entry of the object in
the list adds `convert(linear) * deltaTime` to the linear velocity of its rigid body and
`convert(angular) * deltaTime` to its angular velocity, and no force or torque is queued;
so for an object attached exactly once the linear velocity after `Tick` is the old one
plus `convert(linear) * deltaTime`, and likewise the angular velocity. `LOCAL_ACCELERATION`
gives the same with the linear vector first multiplied by the orientation basis of the
body (the angular vector is not rotated), so the two kinds agree when that basis is the
identity. -/
theorem acceleration_events_add_velocity {S V : Type} [CommRing S]
    (cv : Convert S V) (c : CPhysicsMotionController S V) (w : World S) (deltaTime : S)
    (handler : IMotionEvent S V) (p : Nat) (linear angular : V)
    (hh : c.m_handler = some handler) (hp : some p ∈ c.m_objectList) :
    (handler.Simulate p deltaTime = (.SIM_GLOBAL_ACCELERATION, linear, angular) →
      (c.Tick cv w deltaTime).2.bodies p
          = { w.bodies p with
              m_linearVelocity :=
                (fun v => v + (cv.ConvertForceImpulseToBull linear).scale deltaTime)^[
                  c.m_objectList.count (some p)] (w.bodies p).m_linearVelocity
              m_angularVelocity :=
                (fun v => v + (cv.ConvertAngularImpulseToBull angular).scale deltaTime)^[
                  c.m_objectList.count (some p)] (w.bodies p).m_angularVelocity }
      ∧ ((c.Tick cv w deltaTime).2.bodies p).centralForces = (w.bodies p).centralForces
      ∧ ((c.Tick cv w deltaTime).2.bodies p).torques = (w.bodies p).torques
      ∧ (c.m_objectList.count (some p) = 1 →
          ((c.Tick cv w deltaTime).2.bodies p).m_linearVelocity
              = (w.bodies p).m_linearVelocity
                  + (cv.ConvertForceImpulseToBull linear).scale deltaTime
          ∧ ((c.Tick cv w deltaTime).2.bodies p).m_angularVelocity
              = (w.bodies p).m_angularVelocity
                  + (cv.ConvertAngularImpulseToBull angular).scale deltaTime))
    ∧ (handler.Simulate p deltaTime = (.SIM_LOCAL_ACCELERATION, linear, angular) →
      (c.Tick cv w deltaTime).2.bodies p
          = { w.bodies p with
              m_linearVelocity :=
                (fun v => v + ((w.bodies p).getGraphicTransform.getBasis.mulVec
                    (cv.ConvertForceImpulseToBull linear)).scale deltaTime)^[
                  c.m_objectList.count (some p)] (w.bodies p).m_linearVelocity
              m_angularVelocity :=
                (fun v => v + (cv.ConvertAngularImpulseToBull angular).scale deltaTime)^[
                  c.m_objectList.count (some p)] (w.bodies p).m_angularVelocity }
      ∧ ((c.Tick cv w deltaTime).2.bodies p).centralForces = (w.bodies p).centralForces
      ∧ ((c.Tick cv w deltaTime).2.bodies p).torques = (w.bodies p).torques
      ∧ (c.m_objectList.count (some p) = 1 →
          ((c.Tick cv w deltaTime).2.bodies p).m_linearVelocity
              = (w.bodies p).m_linearVelocity
                  + ((w.bodies p).getGraphicTransform.getBasis.mulVec
                      (cv.ConvertForceImpulseToBull linear)).scale deltaTime
          ∧ ((c.Tick cv w deltaTime).2.bodies p).m_angularVelocity
              = (w.bodies p).m_angularVelocity
                  + (cv.ConvertAngularImpulseToBull angular).scale deltaTime
          ∧ ((w.bodies p).getGraphicTransform.getBasis = btMatrix3x3.identity →
              ((c.Tick cv w deltaTime).2.bodies p).m_linearVelocity
                = (w.bodies p).m_linearVelocity
                    + (cv.ConvertForceImpulseToBull linear).scale deltaTime)))
    ∧ 0 < c.m_objectList.count (some p) := by
  refine ⟨fun hsim => ?_, fun hsim => ?_,
    CPhysicsMotionController.count_pos_of_attached _ p hp⟩
  · have hbody : (c.Tick cv w deltaTime).2.bodies p
          = { w.bodies p with
              m_linearVelocity :=
                (fun v => v + (cv.ConvertForceImpulseToBull linear).scale deltaTime)^[
                  c.m_objectList.count (some p)] (w.bodies p).m_linearVelocity
              m_angularVelocity :=
                (fun v => v + (cv.ConvertAngularImpulseToBull angular).scale deltaTime)^[
                  c.m_objectList.count (some p)] (w.bodies p).m_angularVelocity } := by
      rw [CPhysicsMotionController.Tick_bodies cv c w deltaTime handler hh p,
        CPhysicsMotionController.objectStep_of_answer cv handler deltaTime p _ _ _ hsim]
      exact CPhysicsMotionController.iterate_velocity_step
        (fun _ => (cv.ConvertForceImpulseToBull linear).scale deltaTime) _ _ (w.bodies p)
    refine ⟨hbody, by rw [hbody], by rw [hbody], fun h1 => ?_⟩
    rw [hbody, h1]
    exact ⟨rfl, rfl⟩
  · have hbody : (c.Tick cv w deltaTime).2.bodies p
          = { w.bodies p with
              m_linearVelocity :=
                (fun v => v + ((w.bodies p).getGraphicTransform.getBasis.mulVec
                    (cv.ConvertForceImpulseToBull linear)).scale deltaTime)^[
                  c.m_objectList.count (some p)] (w.bodies p).m_linearVelocity
              m_angularVelocity :=
                (fun v => v + (cv.ConvertAngularImpulseToBull angular).scale deltaTime)^[
                  c.m_objectList.count (some p)] (w.bodies p).m_angularVelocity } := by
      rw [CPhysicsMotionController.Tick_bodies cv c w deltaTime handler hh p,
        CPhysicsMotionController.objectStep_of_answer cv handler deltaTime p _ _ _ hsim]
      exact CPhysicsMotionController.iterate_velocity_step
        (fun t => (t.getBasis.mulVec (cv.ConvertForceImpulseToBull linear)).scale deltaTime)
        _ _ (w.bodies p)
    refine ⟨hbody, by rw [hbody], by rw [hbody], fun h1 => ?_⟩
    rw [hbody, h1]
    refine ⟨rfl, rfl, fun hid => ?_⟩
    show (w.bodies p).m_linearVelocity
        + ((w.bodies p).getGraphicTransform.getBasis.mulVec
            (cv.ConvertForceImpulseToBull linear)).scale deltaTime = _
    rw [hid, btMatrix3x3.identity_mulVec]

/-- Witness of the amended C18: one object attached once in the turned world; the global
acceleration (2,0,0) over `deltaTime = 3` takes the linear velocity from (1,2,3) to
(7,2,3), the local one takes it to (1,8,3), and the angular velocity from (3,2,1) to
(3,2,4) in both cases. -/
theorem acceleration_events_add_velocity_witness :
    (((controllerOf (some (constantHandler .SIM_GLOBAL_ACCELERATION ⟨2, 0, 0⟩ ⟨0, 0, 1⟩))
          [some 1] : CPhysicsMotionController ℤ (btVector3 ℤ)).Tick solverUnits turnedWorld
          3).2.bodies 1).m_linearVelocity = ⟨7, 2, 3⟩
    ∧ (((controllerOf (some (constantHandler .SIM_GLOBAL_ACCELERATION ⟨2, 0, 0⟩ ⟨0, 0, 1⟩))
          [some 1] : CPhysicsMotionController ℤ (btVector3 ℤ)).Tick solverUnits turnedWorld
          3).2.bodies 1).m_angularVelocity = ⟨3, 2, 4⟩
    ∧ (((controllerOf (some (constantHandler .SIM_LOCAL_ACCELERATION ⟨2, 0, 0⟩ ⟨0, 0, 1⟩))
          [some 1] : CPhysicsMotionController ℤ (btVector3 ℤ)).Tick solverUnits turnedWorld
          3).2.bodies 1).m_linearVelocity = ⟨1, 8, 3⟩ :=
  ⟨(((acceleration_events_add_velocity solverUnits
        (controllerOf (some (constantHandler .SIM_GLOBAL_ACCELERATION ⟨2, 0, 0⟩ ⟨0, 0, 1⟩))
          [some 1] : CPhysicsMotionController ℤ (btVector3 ℤ)) turnedWorld 3 _ 1
        ⟨2, 0, 0⟩ ⟨0, 0, 1⟩ rfl (by simp [controllerOf])).1 rfl).2.2.2 rfl).1,
    (((acceleration_events_add_velocity solverUnits
        (controllerOf (some (constantHandler .SIM_GLOBAL_ACCELERATION ⟨2, 0, 0⟩ ⟨0, 0, 1⟩))
          [some 1] : CPhysicsMotionController ℤ (btVector3 ℤ)) turnedWorld 3 _ 1
        ⟨2, 0, 0⟩ ⟨0, 0, 1⟩ rfl (by simp [controllerOf])).1 rfl).2.2.2 rfl).2,
    (((acceleration_events_add_velocity solverUnits
        (controllerOf (some (constantHandler .SIM_LOCAL_ACCELERATION ⟨2, 0, 0⟩ ⟨0, 0, 1⟩))
          [some 1] : CPhysicsMotionController ℤ (btVector3 ℤ)) turnedWorld 3 _ 1
        ⟨2, 0, 0⟩ ⟨0, 0, 1⟩ rfl (by simp [controllerOf])).2.1 rfl).2.2.2 rfl).1⟩

/-- C19: without a handler `Tick` changes nothing at all, neither the object list (null
entries included) nor the world. With a handler, an object whose answer is `NOTHING` or an
out-of-range kind keeps its rigid body (velocities, queued forces and torques) as it was,
an out-of-range kind of an attached object is reported, and every non-null entry of the
list is still simulated, in order, each object according to its own answer. -/
theorem Tick_without_handler_or_event_changes_nothing {S V : Type} [Add S] [Mul S]
    (cv : Convert S V) (c : CPhysicsMotionController S V) (w : World S) (deltaTime : S) :
    (c.m_handler = none → c.Tick cv w deltaTime = (c, w))
    ∧ (∀ handler, c.m_handler = some handler →
        (∀ p, (handler.Simulate p deltaTime).1 = .SIM_NOTHING →
          (c.Tick cv w deltaTime).2.bodies p = w.bodies p)
        ∧ (∀ p value, (handler.Simulate p deltaTime).1 = .outOfRange value →
          (c.Tick cv w deltaTime).2.bodies p = w.bodies p
          ∧ (some p ∈ c.m_objectList → value ∈ (c.Tick cv w deltaTime).2.warnings))
        ∧ (∀ q, (c.Tick cv w deltaTime).2.bodies q
            = (CPhysicsMotionController.objectStep cv handler deltaTime q)^[
                c.m_objectList.count (some q)] (w.bodies q))
        ∧ (c.Tick cv w deltaTime).2.simulateCalls
            = w.simulateCalls ++ c.m_objectList.reduceOption
        ∧ (c.Tick cv w deltaTime).1.m_objectList = c.m_objectList.filter Option.isSome) := by
  refine ⟨CPhysicsMotionController.Tick_of_no_handler cv c w deltaTime, fun handler hh => ?_⟩
  have hbodies := CPhysicsMotionController.Tick_bodies cv c w deltaTime handler hh
  have hT := CPhysicsMotionController.Tick_of_handler cv c w deltaTime handler hh
  refine ⟨fun p hp => ?_, fun p value hp => ⟨?_, fun hmem => ?_⟩, hbodies, ?_, ?_⟩
  · have hid : CPhysicsMotionController.objectStep cv handler deltaTime p = id := by
      funext body
      simp [CPhysicsMotionController.objectStep, hp, CPhysicsMotionController.dispatch]
    rw [hbodies p, hid, Function.iterate_id]
    rfl
  · have hid : CPhysicsMotionController.objectStep cv handler deltaTime p = id := by
      funext body
      simp [CPhysicsMotionController.objectStep, hp, CPhysicsMotionController.dispatch]
    rw [hbodies p, hid, Function.iterate_id]
    rfl
  · rw [hT]
    exact CPhysicsMotionController.simulateAll_warnings_mem cv handler deltaTime value p hp _ w
      ((CPhysicsMotionController.mem_reduceOption_iff _ p).mpr hmem)
  · rw [hT]
    exact CPhysicsMotionController.simulateAll_calls cv handler deltaTime _ w
  · rw [hT]

/-- Witness of C19: no handler on a list with a null entry; and the handler that answers
out of range for object 1, nothing for object 2 and a global acceleration of (1,0,0) for
object 3, on the list 1, null, 2, 3, 3 with `deltaTime = 2`. -/
theorem Tick_without_handler_or_event_changes_nothing_witness :
    (controllerOf none [none, some 1] : CPhysicsMotionController ℤ (btVector3 ℤ)).Tick
        solverUnits restWorld 2
      = ((controllerOf none [none, some 1] : CPhysicsMotionController ℤ (btVector3 ℤ)),
          restWorld)
    ∧ ((controllerOf (some mixedHandler) [some 1, none, some 2, some 3, some 3]
          : CPhysicsMotionController ℤ (btVector3 ℤ)).Tick solverUnits restWorld
          2).2.bodies 1 = restRigidBody
    ∧ (((controllerOf (some mixedHandler) [some 1, none, some 2, some 3, some 3]
          : CPhysicsMotionController ℤ (btVector3 ℤ)).Tick solverUnits restWorld
          2).2.bodies 3).m_linearVelocity = ⟨4, 0, 0⟩
    ∧ ((controllerOf (some mixedHandler) [some 1, none, some 2, some 3, some 3]
          : CPhysicsMotionController ℤ (btVector3 ℤ)).Tick solverUnits restWorld
          2).2.simulateCalls = [1, 2, 3, 3]
    ∧ (7 : Int) ∈ ((controllerOf (some mixedHandler) [some 1, none, some 2, some 3, some 3]
          : CPhysicsMotionController ℤ (btVector3 ℤ)).Tick solverUnits restWorld
          2).2.warnings :=
  have h := (Tick_without_handler_or_event_changes_nothing solverUnits
    (controllerOf (some mixedHandler) [some 1, none, some 2, some 3, some 3]
      : CPhysicsMotionController ℤ (btVector3 ℤ)) restWorld 2).2 mixedHandler rfl
  ⟨(Tick_without_handler_or_event_changes_nothing solverUnits
      (controllerOf none [none, some 1] : CPhysicsMotionController ℤ (btVector3 ℤ))
      restWorld 2).1 rfl,
    (h.2.1 1 7 rfl).1,
    congrArg btRigidBody.m_linearVelocity (h.2.2.1 3),
    h.2.2.2.1,
    (h.2.1 1 7 rfl).2 (by simp [controllerOf])⟩
